import Mathlib

/-!
Verification of the spot-extraction core of the coppafish in-situ-sequencing
pipeline (files `iss/utils/morphology.py`, `iss/omp/spots.py`,
`iss/pipeline/omp.py`), via a shallow embedding of the relevant functions.

Conventions of the embedding:
* numpy arrays of rank 2 and 3 become `Grid2` / `Grid3`: explicit extents plus
  a total entry function that is meaningful on the index box
  `[0, rows) x [0, cols)` (resp. the three-dimensional box).
* Python floats become `ℚ` (exact arithmetic; the one `np.round` in
  `count_spot_neighbours` exists only to remove float32 accumulation noise and
  is the identity on the exact values, it is still applied literally).
* Raised Python exceptions become `Except.error` with a message string that
  names the exception class of the source.
-/

/-- A dense rank-2 array (numpy `ndarray` with two axes): explicit extents and
an entry function, meaningful on `[0, rows) x [0, cols)`.  Indices are `Int`
so that offset arithmetic needs no coercions. -/
structure Grid2 (α : Type) where
  rows : Nat
  cols : Nat
  val : Int → Int → α

/-- A dense rank-3 array (numpy `ndarray` with axes y, x, z). -/
structure Grid3 (α : Type) where
  dy : Nat
  dx : Nat
  dz : Nat
  val : Int → Int → Int → α

/-- Entry lookup with constant-zero padding outside the extents
(numpy / scipy constant mode with `cval = 0`). -/
def Grid2.at0 (g : Grid2 ℚ) (i j : Int) : ℚ :=
  if 0 ≤ i ∧ i < (g.rows : Int) ∧ 0 ≤ j ∧ j < (g.cols : Int) then g.val i j else 0

/-- Entry lookup with constant-zero padding outside the extents. -/
def Grid3.at0 (g : Grid3 ℚ) (y x z : Int) : ℚ :=
  if 0 ≤ y ∧ y < (g.dy : Int) ∧ 0 ≤ x ∧ x < (g.dx : Int) ∧ 0 ≤ z ∧ z < (g.dz : Int)
  then g.val y x z else 0

/-- Whether an index pair lies inside the extents of a rank-2 array. -/
def Grid2.inBounds (g : Grid2 α) (i j : Int) : Prop :=
  0 ≤ i ∧ i < (g.rows : Int) ∧ 0 ≤ j ∧ j < (g.cols : Int)

/-- Whether an index triple lies inside the extents of a rank-3 array. -/
def Grid3.inBounds (g : Grid3 α) (y x z : Int) : Prop :=
  0 ≤ y ∧ y < (g.dy : Int) ∧ 0 ≤ x ∧ x < (g.dx : Int) ∧ 0 ≤ z ∧ z < (g.dz : Int)

instance (g : Grid2 α) (i j : Int) : Decidable (g.inBounds i j) :=
  inferInstanceAs (Decidable (0 ≤ i ∧ i < (g.rows : Int) ∧ 0 ≤ j ∧ j < (g.cols : Int)))

instance (g : Grid3 α) (y x z : Int) : Decidable (g.inBounds y x z) :=
  inferInstanceAs (Decidable (0 ≤ y ∧ y < (g.dy : Int) ∧ 0 ≤ x ∧ x < (g.dx : Int) ∧
    0 ≤ z ∧ z < (g.dz : Int)))

namespace Strel

/-- Source `Strel.periodic_line(p, v)` (iss/utils/morphology.py lines 12-31):
the minimal 0/1 mask containing the origin and the points `k * v` for
`k = -p, ..., p`.  The extents are `2 * max |row offset| + 1` by
`2 * max |col offset| + 1` exactly as computed by the source
(`M = 2 * np.abs(r).max() + 1`), and a cell is 1 iff it is one of the line
members shifted to the centre. -/
def periodic_line (p : Nat) (v : Int × Int) : Grid2 Int :=
  let ks : List Int := (List.range (2 * p + 1)).map (fun i => (i : Int) - (p : Int))
  let rOffsets := ks.map (fun k => k * v.1)
  let cOffsets := ks.map (fun k => k * v.2)
  let A : Nat := (rOffsets.map Int.natAbs).foldr max 0
  let B : Nat := (cOffsets.map Int.natAbs).foldr max 0
  { rows := 2 * A + 1
    cols := 2 * B + 1
    val := fun i j =>
      if ks.any (fun k => k * v.1 + (A : Int) == i && k * v.2 + (B : Int) == j) then 1 else 0 }

/-- The `n == 0` branch of source `Strel.disk` (morphology.py lines 55-57):
all grid points within Euclidean distance `r` of the centre, on a
`(2r+1) x (2r+1)` grid. -/
def diskDirect (r : Nat) : Grid2 Int :=
  { rows := 2 * r + 1
    cols := 2 * r + 1
    val := fun i j => if (i - r) ^ 2 + (j - r) ^ 2 ≤ (r : Int) ^ 2 then 1 else 0 }

/-- The fixed basis of periodic-line offset vectors used by the disk
decomposition (morphology.py lines 74-79), for `n` in `{4, 6, 8}`. -/
def diskBasis (n : Nat) : List (Int × Int) :=
  if n = 4 then [(1, 0), (1, 1), (0, 1), (-1, 1)]
  else if n = 6 then [(1, 0), (1, 2), (2, 1), (0, 1), (-1, 2), (-2, 1)]
  else [(1, 0), (2, 1), (1, 1), (1, 2), (0, 1), (-1, 2), (-1, 1), (-2, 1)]

/-- The quantity `1 / tan(pi / (2 n)) + 1 / sin(pi / (2 n))` from
morphology.py lines 85-86, which the source evaluates in double-precision
floating point.  Embedded as a rational constant correct to 15 significant
digits for each of the three admissible orders; no claim proved in this file
depends on the value of this constant (the decomposition entries never enter
any claim, only the extents of the resulting mask do). -/
def diskCotCscSum (n : Nat) : ℚ :=
  if n = 4 then 5027339492125848 / 10 ^ 15
  else if n = 6 then 7595754112725151 / 10 ^ 15
  else 1015317038760886 / 10 ^ 14

/-- Repetition parameter `rp = floor(k / norm(v))` of morphology.py line 95,
computed exactly over `ℚ`: for `k ≥ 0`, `floor (k / sqrt m) = sqrt (floor (k ^ 2 / m))`
with the outer square root the integer square root. -/
def diskRepetitions (k : ℚ) (v : Int × Int) : Nat :=
  Nat.sqrt (Int.toNat ⌊k ^ 2 / ((v.1 ^ 2 + v.2 ^ 2 : Int) : ℚ)⌋)

/-- Source `ensure_odd_kernel` (morphology.py lines 235-257) for rank 2 with
`pad_location = start`: every even extent is padded with one leading row or
column of zeros. -/
def ensureOddKernel2 (g : Grid2 Int) : Grid2 Int :=
  let pr : Nat := if g.rows % 2 = 0 then 1 else 0
  let pc : Nat := if g.cols % 2 = 0 then 1 else 0
  { rows := g.rows + pr
    cols := g.cols + pc
    val := fun i j =>
      if i < (pr : Int) ∨ j < (pc : Int) then 0 else g.val (i - pr) (j - pc) }

/-- Source `dilate` (morphology.py lines 275-285): grey dilation of a
real-valued image by a 0/1 footprint, zero padding outside the image
(`scipy.ndimage.grey_dilation` with `mode = constant`, `cval = 0`), after
making the footprint odd.  The image carries `WithBot ℚ` values because the
disk decomposition seeds the grey image with `-inf` (morphology.py line 92);
`⊥` embeds `-inf`.  Output extents equal input extents (scipy returns a
same-size array).  Grey dilation reflects the footprint; every footprint the
source passes here is point symmetric, so the reflection is written out
literally without affecting any result. -/
def greyDilate2 (g : Grid2 (WithBot ℚ)) (fp0 : Grid2 Int) : Grid2 (WithBot ℚ) :=
  let fp := ensureOddKernel2 fp0
  let cy : Int := ((fp.rows - 1) / 2 : Nat)
  let cx : Int := ((fp.cols - 1) / 2 : Nat)
  { rows := g.rows
    cols := g.cols
    val := fun i j =>
      ((List.range fp.rows).flatMap (fun a =>
        (List.range fp.cols).filterMap (fun b =>
          if fp.val a b ≠ 0 then
            let y := i - ((a : Int) - cy)
            let x := j - ((b : Int) - cx)
            some (if 0 ≤ y ∧ y < (g.rows : Int) ∧ 0 ≤ x ∧ x < (g.cols : Int)
                  then g.val y x else ((0 : ℚ) : WithBot ℚ))
          else none))).foldr max ⊥ }

/-- Binary dilation by an all-ones `kr x kc` kernel with centre anchor,
out-of-bounds neighbours ignored (`cv2.dilate`, morphology.py lines 107-108).
Output extents equal input extents. -/
def binaryDilate2 (g : Grid2 Int) (kr kc : Nat) : Grid2 Int :=
  { rows := g.rows
    cols := g.cols
    val := fun i j =>
      if (List.range kr).any (fun a => (List.range kc).any (fun b =>
          let y := i + ((a : Int) - ((kr / 2 : Nat) : Int))
          let x := j + ((b : Int) - ((kc / 2 : Nat) : Int))
          decide (0 ≤ y ∧ y < (g.rows : Int) ∧ 0 ≤ x ∧ x < (g.cols : Int)) &&
            g.val y x != 0))
      then 1 else 0 }

/-- Number of all-zero rows of a 0/1 grid (morphology.py line 103,
`sum(np.sum(nhood, axis=1) == 0)`). -/
def zeroRowCount (g : Grid2 Int) : Nat :=
  ((List.range g.rows).filter (fun i =>
    (List.range g.cols).all (fun j => g.val i j == 0))).length

/-- The seed image of the disk decomposition (morphology.py lines 92-93):
a `(2r-1) x (2r-1)` grey image equal to `-inf` everywhere except for `1` at
the centre index `(shape - 1) / 2`. -/
def diskDecompSeed (r : Nat) : Grid2 (WithBot ℚ) :=
  let c : Int := (((2 * r - 1) - 1) / 2 : Nat)
  { rows := 2 * r - 1
    cols := 2 * r - 1
    val := fun i j => if i = c ∧ j = c then ((1 : ℚ) : WithBot ℚ) else ⊥ }

/-- The periodic-line dilation loop of the disk decomposition (morphology.py
lines 94-97): one grey dilation per basis vector, with repetition parameter
`floor(k / norm v)`. -/
def diskDecompLines (r n : Nat) : Grid2 (WithBot ℚ) :=
  (diskBasis n).foldl
    (fun g v => greyDilate2 g (periodic_line (diskRepetitions (2 * (r : ℚ) / diskCotCscSum n) v) v))
    (diskDecompSeed r)

/-- Thresholding of the dilated grey image at `> 0` (morphology.py line 98). -/
def diskDecompBinary (r n : Nat) : Grid2 Int :=
  { rows := (diskDecompLines r n).rows
    cols := (diskDecompLines r n).cols
    val := fun i j => if (0 : WithBot ℚ) < (diskDecompLines r n).val i j then 1 else 0 }

/-- The `n > 0` branch of source `Strel.disk` (morphology.py lines 58-109),
reached only for `r ≥ 3` and `n` in `{4, 6, 8}`: the thresholded dilation
result is finally binary dilated by horizontal and vertical all-ones lines
whose length is the number of all-zero rows plus one (the source guard
`extra_strel_size > 0` is always true since the count is incremented by one,
and it is mirrored literally). -/
def diskDecomp (r n : Nat) : Grid2 Int :=
  let nhood := diskDecompBinary r n
  let extra := zeroRowCount nhood + 1
  if 0 < extra then
    binaryDilate2 (binaryDilate2 nhood 1 extra) extra 1
  else
    nhood

/-- Source `Strel.disk(r, n)` (morphology.py lines 33-110).  For `r < 3` the
order is forced to 0; order 0 gives the direct Euclidean disk; orders 4, 6, 8
give the periodic-line decomposition; any other order raises `ValueError`. -/
def disk (r : Nat) (n : Nat) : Except String (Grid2 Int) :=
  let n1 := if r < 3 then 0 else n
  if n1 = 0 then Except.ok (diskDirect r)
  else if n1 = 4 ∨ n1 = 6 ∨ n1 = 8 then Except.ok (diskDecomp r n1)
  else Except.error ("ValueError: Value of n provided (" ++ toString n ++
    ") is not 0, 4, 6 or 8.")

/-- Source `Strel.disk_3d(r_xy, r_z)` (morphology.py lines 112-123): points
with `x^2 + y^2 + z^2 ≤ r_xy^2` on a `(2 r_xy + 1)^2 x (2 r_z + 1)` grid
(the z axis uses `r_xy` in the inequality, exactly as the source does). -/
def disk_3d (r_xy r_z : Nat) : Grid3 Int :=
  { dy := 2 * r_xy + 1
    dx := 2 * r_xy + 1
    dz := 2 * r_z + 1
    val := fun y x z =>
      if (x - r_xy) ^ 2 + (y - r_xy) ^ 2 + (z - r_z) ^ 2 ≤ (r_xy : Int) ^ 2 then 1 else 0 }

/-- Source `Strel.annulus(r0, r_xy)` with `r_z = None` (morphology.py lines
125-152, two-dimensional branch): on a grid of half-width `floor r_xy`, a
cell at offset `(y, x)` from the centre is 1 iff
`r_xy ^ 2 ≥ x ^ 2 + y ^ 2` and `x ^ 2 + y ^ 2 > r0 ^ 2`. -/
def annulus (r0 r_xy : ℚ) : Grid2 Int :=
  let a : Int := ⌊r_xy⌋
  { rows := (2 * a + 1).toNat
    cols := (2 * a + 1).toNat
    val := fun i j =>
      let m : Int := (j - a) ^ 2 + (i - a) ^ 2
      if r_xy ^ 2 ≥ (m : ℚ) ∧ (m : ℚ) > r0 ^ 2 then 1 else 0 }

/-- Source `Strel.annulus(r0, r_xy, r_z)` with `r_z` given (morphology.py
lines 144-152, three-dimensional branch): z contributes to the squared
distance unrescaled and only `r_xy` bounds it above. -/
def annulus_z (r0 r_xy r_z : ℚ) : Grid3 Int :=
  let a : Int := ⌊r_xy⌋
  let az : Int := ⌊r_z⌋
  { dy := (2 * a + 1).toNat
    dx := (2 * a + 1).toNat
    dz := (2 * az + 1).toNat
    val := fun y x z =>
      let m : Int := (x - a) ^ 2 + (y - a) ^ 2 + (z - az) ^ 2
      if r_xy ^ 2 ≥ (m : ℚ) ∧ (m : ℚ) > r0 ^ 2 then 1 else 0 }

end Strel

/-! ### Helper lemmas on grid extents -/

/-- Folding a rows-preserving grid transformer preserves the row extent. -/
theorem foldl_rows_preserved {β : Type} (f : Grid2 (WithBot ℚ) → β → Grid2 (WithBot ℚ))
    (hf : ∀ g b, (f g b).rows = g.rows) (l : List β) (init : Grid2 (WithBot ℚ)) :
    (l.foldl f init).rows = init.rows := by
  induction l generalizing init with
  | nil => rfl
  | cons a t ih => rw [List.foldl_cons, ih, hf]

/-- Folding a cols-preserving grid transformer preserves the column extent. -/
theorem foldl_cols_preserved {β : Type} (f : Grid2 (WithBot ℚ) → β → Grid2 (WithBot ℚ))
    (hf : ∀ g b, (f g b).cols = g.cols) (l : List β) (init : Grid2 (WithBot ℚ)) :
    (l.foldl f init).cols = init.cols := by
  induction l generalizing init with
  | nil => rfl
  | cons a t ih => rw [List.foldl_cons, ih, hf]

/-- Grey dilation returns a same-size array. -/
theorem greyDilate2_rows (g : Grid2 (WithBot ℚ)) (f : Grid2 Int) :
    (Strel.greyDilate2 g f).rows = g.rows := rfl

/-- Grey dilation returns a same-size array. -/
theorem greyDilate2_cols (g : Grid2 (WithBot ℚ)) (f : Grid2 Int) :
    (Strel.greyDilate2 g f).cols = g.cols := rfl

/-- The periodic-line dilation loop keeps the extents of its seed image. -/
theorem diskDecompLines_rows (r n : Nat) : (Strel.diskDecompLines r n).rows = 2 * r - 1 := by
  unfold Strel.diskDecompLines
  exact foldl_rows_preserved
    (fun g v => Strel.greyDilate2 g
      (Strel.periodic_line (Strel.diskRepetitions (2 * (r : ℚ) / Strel.diskCotCscSum n) v) v))
    (fun g v => greyDilate2_rows g _) (Strel.diskBasis n) (Strel.diskDecompSeed r)

/-- Column analogue of `diskDecompLines_rows`. -/
theorem diskDecompLines_cols (r n : Nat) : (Strel.diskDecompLines r n).cols = 2 * r - 1 := by
  unfold Strel.diskDecompLines
  exact foldl_cols_preserved
    (fun g v => Strel.greyDilate2 g
      (Strel.periodic_line (Strel.diskRepetitions (2 * (r : ℚ) / Strel.diskCotCscSum n) v) v))
    (fun g v => greyDilate2_cols g _) (Strel.diskBasis n) (Strel.diskDecompSeed r)

/-- Binary dilation returns a same-size array. -/
theorem binaryDilate2_rows (g : Grid2 Int) (kr kc : Nat) :
    (Strel.binaryDilate2 g kr kc).rows = g.rows := rfl

/-- Binary dilation returns a same-size array. -/
theorem binaryDilate2_cols (g : Grid2 Int) (kr kc : Nat) :
    (Strel.binaryDilate2 g kr kc).cols = g.cols := rfl

/-- The thresholding step keeps the extents of the dilation loop. -/
theorem diskDecompBinary_rows (r n : Nat) :
    (Strel.diskDecompBinary r n).rows = (Strel.diskDecompLines r n).rows := rfl

/-- Column analogue of `diskDecompBinary_rows`. -/
theorem diskDecompBinary_cols (r n : Nat) :
    (Strel.diskDecompBinary r n).cols = (Strel.diskDecompLines r n).cols := rfl

/-- The final guard of the decomposition branch is always taken: the extra
line length is a count plus one. -/
theorem diskDecomp_eq_dilated (r n : Nat) :
    Strel.diskDecomp r n
      = Strel.binaryDilate2 (Strel.binaryDilate2 (Strel.diskDecompBinary r n) 1
          (Strel.zeroRowCount (Strel.diskDecompBinary r n) + 1))
          (Strel.zeroRowCount (Strel.diskDecompBinary r n) + 1) 1 := by
  show (if 0 < Strel.zeroRowCount (Strel.diskDecompBinary r n) + 1 then
      Strel.binaryDilate2 (Strel.binaryDilate2 (Strel.diskDecompBinary r n) 1
        (Strel.zeroRowCount (Strel.diskDecompBinary r n) + 1))
        (Strel.zeroRowCount (Strel.diskDecompBinary r n) + 1) 1
    else Strel.diskDecompBinary r n) = _
  rw [if_pos (Nat.succ_pos _)]

/-- The decomposition branch of `Strel.disk` keeps the `(2r-1) x (2r-1)`
extents of its seed image: grey dilation and binary dilation both return
same-size arrays. -/
theorem diskDecomp_rows (r n : Nat) : (Strel.diskDecomp r n).rows = 2 * r - 1 := by
  rw [diskDecomp_eq_dilated, binaryDilate2_rows, binaryDilate2_rows, diskDecompBinary_rows]
  exact diskDecompLines_rows r n

/-- Column analogue of `diskDecomp_rows`. -/
theorem diskDecomp_cols (r n : Nat) : (Strel.diskDecomp r n).cols = 2 * r - 1 := by
  rw [diskDecomp_eq_dilated, binaryDilate2_cols, binaryDilate2_cols, diskDecompBinary_cols]
  exact diskDecompLines_cols r n

/-- Branch equation for `Strel.disk`: small radius or order 0 gives the
direct disk. -/
theorem disk_direct_eq (r n : Nat) (h : r < 3 ∨ n = 0) :
    Strel.disk r n = Except.ok (Strel.diskDirect r) := by
  rcases h with h | h
  · simp [Strel.disk, h]
  · subst h
    by_cases h3 : r < 3 <;> simp [Strel.disk, h3]

/-- Branch equation for `Strel.disk`: radius at least 3 with a valid nonzero
order gives the decomposition disk. -/
theorem disk_decomp_eq (r n : Nat) (h3 : ¬ r < 3) (hv : n = 4 ∨ n = 6 ∨ n = 8) :
    Strel.disk r n = Except.ok (Strel.diskDecomp r n) := by
  have h0 : ¬ n = 0 := by rcases hv with h | h | h <;> omega
  simp [Strel.disk, h3, h0, hv]

/-- Branch equation for `Strel.disk`: radius at least 3 with an invalid order
raises the `ValueError`. -/
theorem disk_error_eq (r n : Nat) (h3 : ¬ r < 3) (h0 : n ≠ 0) (h4 : n ≠ 4)
    (h6 : n ≠ 6) (h8 : n ≠ 8) :
    Strel.disk r n = Except.error
      ("ValueError: Value of n provided (" ++ toString n ++ ") is not 0, 4, 6 or 8.") := by
  simp [Strel.disk, h3, h0, h4, h6, h8]

/-! ### Claims about the structuring-element factory -/

/-- C2 counterexample: with radius 2 (below 3) and the invalid decomposition
order 5, `Strel.disk` does not fail: the source forces the order to 0 before
validating it and returns the direct disk mask. -/
theorem disk_invalid_order_small_radius_ok :
    ¬(5 = 0 ∨ 5 = 4 ∨ 5 = 6 ∨ 5 = 8) ∧
      Strel.disk 2 5 = Except.ok (Strel.diskDirect 2) :=
  ⟨by decide, rfl⟩

/-- C2 (amended): for radius at least 3, `Strel.disk` fails with the
`ValueError` for every decomposition order outside {0, 4, 6, 8}; for radius
below 3 the order is forced to 0 and the direct disk mask is returned
without error, whatever the order was. -/
theorem disk_order_validation :
    (∀ r n : Nat, 3 ≤ r → ¬(n = 0 ∨ n = 4 ∨ n = 6 ∨ n = 8) →
      Strel.disk r n = Except.error
        ("ValueError: Value of n provided (" ++ toString n ++ ") is not 0, 4, 6 or 8."))
  ∧ (∀ r n : Nat, r < 3 → Strel.disk r n = Except.ok (Strel.diskDirect r)) := by
  constructor
  · intro r n hr hn
    exact disk_error_eq r n (by omega) (fun h => hn (Or.inl h)) (fun h => hn (Or.inr (Or.inl h)))
      (fun h => hn (Or.inr (Or.inr (Or.inl h)))) (fun h => hn (Or.inr (Or.inr (Or.inr h))))
  · intro r n hr
    exact disk_direct_eq r n (Or.inl hr)

/-- Witness for `disk_order_validation` at radius 3 with order 5 and at
radius 1 with order 9. -/
theorem disk_order_validation_witness :
    ((3 : Nat) ≤ 3 ∧ ¬(5 = 0 ∨ 5 = 4 ∨ 5 = 6 ∨ 5 = 8) ∧
      Strel.disk 3 5 = Except.error
        ("ValueError: Value of n provided (" ++ toString 5 ++ ") is not 0, 4, 6 or 8."))
  ∧ ((1 : Nat) < 3 ∧ Strel.disk 1 9 = Except.ok (Strel.diskDirect 1)) :=
  ⟨⟨le_refl 3, by decide, disk_order_validation.1 3 5 (by omega) (by decide)⟩,
    ⟨by omega, disk_order_validation.2 1 9 (by omega)⟩⟩

/-- The annulus entry at offset `(y, x)` from the grid centre, written with
the offsets substituted in. -/
theorem annulus_val (r0 r_xy : ℚ) (y x : Int) :
    (Strel.annulus r0 r_xy).val (y + ⌊r_xy⌋) (x + ⌊r_xy⌋)
      = if r_xy ^ 2 ≥ ((x ^ 2 + y ^ 2 : Int) : ℚ) ∧ ((x ^ 2 + y ^ 2 : Int) : ℚ) > r0 ^ 2
        then 1 else 0 := by
  have hy : y + ⌊r_xy⌋ - ⌊r_xy⌋ = y := by ring
  have hx : x + ⌊r_xy⌋ - ⌊r_xy⌋ = x := by ring
  simp only [Strel.annulus, hy, hx]

/-- C8: for rational radii `0 ≤ r0 < r_xy`, the two-dimensional annulus mask
is 1 at offset `(y, x)` from its centre exactly when
`r0 ^ 2 < y ^ 2 + x ^ 2 ≤ r_xy ^ 2`.  In particular it contains no integer
point at squared distance at most `r0 ^ 2`, and every integer point with
squared distance in the half-open range lies inside the grid extents and is
set to 1. -/
theorem annulus_ring_membership (r0 r_xy : ℚ) (h0 : 0 ≤ r0) (h1 : r0 < r_xy) :
    (∀ y x : Int, (Strel.annulus r0 r_xy).val (y + ⌊r_xy⌋) (x + ⌊r_xy⌋) = 1 ↔
      (r0 ^ 2 < ((y ^ 2 + x ^ 2 : Int) : ℚ) ∧ ((y ^ 2 + x ^ 2 : Int) : ℚ) ≤ r_xy ^ 2))
  ∧ (∀ y x : Int, r0 ^ 2 < ((y ^ 2 + x ^ 2 : Int) : ℚ) →
      ((y ^ 2 + x ^ 2 : Int) : ℚ) ≤ r_xy ^ 2 →
      (Strel.annulus r0 r_xy).inBounds (y + ⌊r_xy⌋) (x + ⌊r_xy⌋)) := by
  have hxy : 0 < r_xy := lt_of_le_of_lt h0 h1
  have hfl : 0 ≤ ⌊r_xy⌋ := Int.floor_nonneg.mpr (le_of_lt hxy)
  constructor
  · intro y x
    rw [annulus_val]
    have hcomm : ((x ^ 2 + y ^ 2 : Int) : ℚ) = ((y ^ 2 + x ^ 2 : Int) : ℚ) := by
      push_cast
      ring
    rw [hcomm]
    constructor
    · intro h1v
      by_cases hc : r_xy ^ 2 ≥ ((y ^ 2 + x ^ 2 : Int) : ℚ) ∧ ((y ^ 2 + x ^ 2 : Int) : ℚ) > r0 ^ 2
      · exact ⟨hc.2, hc.1⟩
      · rw [if_neg hc] at h1v
        exact absurd h1v (by decide)
    · intro hD
      rw [if_pos ⟨hD.2, hD.1⟩]
  · intro y x hlo hhi
    have hy2 : ((y : ℚ)) ^ 2 ≤ r_xy ^ 2 := by
      have hx2 : (0 : ℚ) ≤ ((x : ℚ)) ^ 2 := sq_nonneg _
      push_cast at hhi
      linarith
    have hyu : (y : ℚ) ≤ r_xy := by nlinarith
    have hyl : -r_xy ≤ (y : ℚ) := by nlinarith
    have hx2 : ((x : ℚ)) ^ 2 ≤ r_xy ^ 2 := by
      have hy2n : (0 : ℚ) ≤ ((y : ℚ)) ^ 2 := sq_nonneg _
      push_cast at hhi
      linarith
    have hxu : (x : ℚ) ≤ r_xy := by nlinarith
    have hxl : -r_xy ≤ (x : ℚ) := by nlinarith
    have hyf : y ≤ ⌊r_xy⌋ := Int.le_floor.mpr hyu
    have hynf : -y ≤ ⌊r_xy⌋ := Int.le_floor.mpr (by push_cast; linarith)
    have hxf : x ≤ ⌊r_xy⌋ := Int.le_floor.mpr hxu
    have hxnf : -x ≤ ⌊r_xy⌋ := Int.le_floor.mpr (by push_cast; linarith)
    refine ⟨by omega, ?_, by omega, ?_⟩
    · show y + ⌊r_xy⌋ < (((2 * ⌊r_xy⌋ + 1).toNat : Nat) : Int)
      omega
    · show x + ⌊r_xy⌋ < (((2 * ⌊r_xy⌋ + 1).toNat : Nat) : Int)
      omega

/-- Witness for `annulus_ring_membership` with `r0 = 1`, `r_xy = 5/2`,
checked at the offset `(2, 0)` whose squared distance 4 lies in `(1, 25/4]`. -/
theorem annulus_ring_membership_witness :
    (0 : ℚ) ≤ 1 ∧ (1 : ℚ) < 5 / 2 ∧
      (Strel.annulus 1 (5 / 2)).val (2 + ⌊(5 / 2 : ℚ)⌋) (0 + ⌊(5 / 2 : ℚ)⌋) = 1 := by
  refine ⟨by norm_num, by norm_num, ?_⟩
  exact ((annulus_ring_membership 1 (5 / 2) (by norm_num) (by norm_num)).1 2 0).mpr
    (by constructor <;> · push_cast; norm_num)

/-- C9: every structuring element the factory produces has odd extent along
every axis: `periodic_line` unconditionally; every mask returned by `disk`
(both the direct path and the periodic-line decomposition path); `disk_3d`
unconditionally; and both annulus variants for nonnegative outer radii. -/
theorem strel_odd_extents :
    (∀ p v, Odd (Strel.periodic_line p v).rows ∧ Odd (Strel.periodic_line p v).cols)
  ∧ (∀ r n g, Strel.disk r n = Except.ok g → Odd g.rows ∧ Odd g.cols)
  ∧ (∀ r_xy r_z, Odd (Strel.disk_3d r_xy r_z).dy ∧ Odd (Strel.disk_3d r_xy r_z).dx ∧
      Odd (Strel.disk_3d r_xy r_z).dz)
  ∧ (∀ r0 r_xy : ℚ, 0 ≤ r_xy →
      Odd (Strel.annulus r0 r_xy).rows ∧ Odd (Strel.annulus r0 r_xy).cols)
  ∧ (∀ r0 r_xy r_z : ℚ, 0 ≤ r_xy → 0 ≤ r_z →
      Odd (Strel.annulus_z r0 r_xy r_z).dy ∧ Odd (Strel.annulus_z r0 r_xy r_z).dx ∧
      Odd (Strel.annulus_z r0 r_xy r_z).dz) := by
  refine ⟨fun p v => ⟨⟨_, rfl⟩, ⟨_, rfl⟩⟩, ?_, fun r_xy r_z => ⟨⟨_, rfl⟩, ⟨_, rfl⟩, ⟨_, rfl⟩⟩, ?_, ?_⟩
  · intro r n g h
    by_cases hd : r < 3 ∨ n = 0
    · rw [disk_direct_eq r n hd, Except.ok.injEq] at h
      subst h
      exact ⟨⟨r, rfl⟩, ⟨r, rfl⟩⟩
    · have h3 : ¬ r < 3 := fun hc => hd (Or.inl hc)
      by_cases hv : n = 4 ∨ n = 6 ∨ n = 8
      · rw [disk_decomp_eq r n h3 hv, Except.ok.injEq] at h
        subst h
        rw [diskDecomp_rows, diskDecomp_cols]
        constructor <;> exact ⟨r - 1, by omega⟩
      · rw [disk_error_eq r n h3 (fun hc => hd (Or.inr hc)) (fun hc => hv (Or.inl hc))
          (fun hc => hv (Or.inr (Or.inl hc))) (fun hc => hv (Or.inr (Or.inr hc)))] at h
        exact absurd h (by simp)
  · intro r0 r_xy hr
    have hfl : 0 ≤ ⌊r_xy⌋ := Int.floor_nonneg.mpr hr
    constructor <;>
      · show Odd (2 * ⌊r_xy⌋ + 1).toNat
        exact ⟨⌊r_xy⌋.toNat, by omega⟩
  · intro r0 r_xy r_z hr hz
    have hfl : 0 ≤ ⌊r_xy⌋ := Int.floor_nonneg.mpr hr
    have hflz : 0 ≤ ⌊r_z⌋ := Int.floor_nonneg.mpr hz
    refine ⟨?_, ?_, ?_⟩
    · show Odd (2 * ⌊r_xy⌋ + 1).toNat
      exact ⟨⌊r_xy⌋.toNat, by omega⟩
    · show Odd (2 * ⌊r_xy⌋ + 1).toNat
      exact ⟨⌊r_xy⌋.toNat, by omega⟩
    · show Odd (2 * ⌊r_z⌋ + 1).toNat
      exact ⟨⌊r_z⌋.toNat, by omega⟩

/-- Witness for `strel_odd_extents`, exercising the decomposition disk path
at radius 4 with order 4 and the annulus variants at radius 5/2. -/
theorem strel_odd_extents_witness :
    Odd (Strel.periodic_line 2 (1, 2)).rows
  ∧ Odd (Strel.diskDecomp 4 4).rows
  ∧ ((0 : ℚ) ≤ 5 / 2 ∧ Odd (Strel.annulus 1 (5 / 2)).rows)
  ∧ ((0 : ℚ) ≤ 5 / 2 ∧ (0 : ℚ) ≤ 1 ∧ Odd (Strel.annulus_z 1 (5 / 2) 1).dz) :=
  ⟨(strel_odd_extents.1 2 (1, 2)).1,
   (strel_odd_extents.2.1 4 4 _ rfl).1,
   ⟨by norm_num, (strel_odd_extents.2.2.2.1 1 (5 / 2) (by norm_num)).1⟩,
   ⟨by norm_num, by norm_num, (strel_odd_extents.2.2.2.2 1 (5 / 2) 1 (by norm_num) (by norm_num)).2.2⟩⟩

/-! ### CoefficientVolumeBuilder: `cropped_coef_image` (iss/omp/spots.py lines 88-126) -/

/-- Minimum of a list of integers folded from a seed, mirroring a numpy
reduction `min` over a nonempty axis (seed = first element, list = rest). -/
def listMinInt (a : Int) (l : List Int) : Int := l.foldl min a

/-- Maximum of a list of integers folded from a seed. -/
def listMaxInt (a : Int) (l : List Int) : Int := l.foldl max a

theorem listMinInt_le_seed (a : Int) (l : List Int) : listMinInt a l ≤ a := by
  induction l generalizing a with
  | nil => exact le_refl a
  | cons b t ih => exact le_trans (ih (min a b)) (min_le_left a b)

theorem listMinInt_le_mem (a : Int) (l : List Int) : ∀ b ∈ l, listMinInt a l ≤ b := by
  induction l generalizing a with
  | nil => intro b hb; exact absurd hb (List.not_mem_nil b)
  | cons c t ih =>
    intro b hb
    rcases List.mem_cons.mp hb with h | h
    · subst h
      exact le_trans (listMinInt_le_seed (min a b) t) (min_le_right a b)
    · exact ih (min a c) b h

theorem listMinInt_attained (a : Int) (l : List Int) :
    listMinInt a l = a ∨ listMinInt a l ∈ l := by
  induction l generalizing a with
  | nil => exact Or.inl rfl
  | cons b t ih =>
    rcases ih (min a b) with h | h
    · rcases min_cases a b with ⟨he, _⟩ | ⟨he, _⟩
      · exact Or.inl (by rw [listMinInt, List.foldl_cons] at *; rw [h, he])
      · refine Or.inr (List.mem_cons.mpr (Or.inl ?_))
        rw [listMinInt, List.foldl_cons] at *
        rw [h, he]
    · exact Or.inr (List.mem_cons.mpr (Or.inr h))

theorem listMaxInt_ge_seed (a : Int) (l : List Int) : a ≤ listMaxInt a l := by
  induction l generalizing a with
  | nil => exact le_refl a
  | cons b t ih => exact le_trans (le_max_left a b) (ih (max a b))

theorem listMaxInt_ge_mem (a : Int) (l : List Int) : ∀ b ∈ l, b ≤ listMaxInt a l := by
  induction l generalizing a with
  | nil => intro b hb; exact absurd hb (List.not_mem_nil b)
  | cons c t ih =>
    intro b hb
    rcases List.mem_cons.mp hb with h | h
    · subst h
      exact le_trans (le_max_right a b) (listMaxInt_ge_seed (max a b) t)
    · exact ih (max a c) b h

theorem listMaxInt_attained (a : Int) (l : List Int) :
    listMaxInt a l = a ∨ listMaxInt a l ∈ l := by
  induction l generalizing a with
  | nil => exact Or.inl rfl
  | cons b t ih =>
    rcases ih (max a b) with h | h
    · rcases max_cases a b with ⟨he, _⟩ | ⟨he, _⟩
      · exact Or.inl (by rw [listMaxInt, List.foldl_cons] at *; rw [h, he])
      · refine Or.inr (List.mem_cons.mpr (Or.inl ?_))
        rw [listMaxInt, List.foldl_cons] at *
        rw [h, he]
    · exact Or.inr (List.mem_cons.mpr (Or.inr h))

/-- In a list of pairs whose first components are pairwise distinct, a pair
is determined by its first component. -/
theorem keyed_unique {α β : Type} (l : List (α × β)) (h : (l.map Prod.fst).Nodup) :
    ∀ p ∈ l, ∀ q ∈ l, p.1 = q.1 → p = q := by
  induction l with
  | nil => intro p hp; exact absurd hp (List.not_mem_nil p)
  | cons c t ih =>
    rw [List.map_cons, List.nodup_cons] at h
    intro p hp q hq hpq
    rcases List.mem_cons.mp hp with hp1 | hp1 <;> rcases List.mem_cons.mp hq with hq1 | hq1
    · rw [hp1, hq1]
    · exfalso
      apply h.1
      rw [hp1] at hpq
      rw [hpq]
      exact List.mem_map_of_mem Prod.fst hq1
    · exfalso
      apply h.1
      rw [hq1] at hpq
      rw [← hpq]
      exact List.mem_map_of_mem Prod.fst hp1
    · exact ih h.2 p hp1 q hq1 hpq

/-- Every element of the second list of a zip appears paired with some
element of the first list, provided the first list is long enough. -/
theorem exists_pair_mem_zip {α β : Type} {l1 : List α} {l2 : List β} {b : β}
    (h : l2.length ≤ l1.length) (hb : b ∈ l2) : ∃ a, (a, b) ∈ l1.zip l2 := by
  induction l2 generalizing l1 with
  | nil => exact absurd hb (List.not_mem_nil b)
  | cons c t ih =>
    cases l1 with
    | nil => simp at h
    | cons a1 t1 =>
      rcases List.mem_cons.mp hb with h1 | h1
      · exact ⟨a1, by rw [h1]; exact List.mem_cons.mpr (Or.inl rfl)⟩
      · obtain ⟨a, ha⟩ := ih (by simpa using h) h1
        exact ⟨a, List.mem_cons.mpr (Or.inr ha)⟩

/-- Result of `cropped_coef_image`: the dense cropped coefficient volume and
the coordinate shift.  The source returns a rank-2 numpy array when the
cropped z extent is 1 and a rank-3 array otherwise; `twoD` records which rank
was returned, with the rank-2 array embedded as the single z plane of the
grid. -/
structure CoefImage where
  twoD : Bool
  img : Grid3 ℚ
  shift : Int × Int × Int

/-- Source `cropped_coef_image` (iss/omp/spots.py lines 88-126): select the
entries with non-zero coefficient, shift their locations so the componentwise
minimum becomes zero, and scatter the coefficients into a zero-initialised
dense volume whose extent per axis is the shifted maximum plus one.  The
scatter assignment writes in index order, so with repeated locations the last
value wins; the entry function returns the last matching non-zero entry.  On
an all-zero column the numpy reduction `min` over the empty selection raises
`ValueError`, embedded as the error case. -/
def cropped_coef_image (pixel_yxz : List (Int × Int × Int)) (pixel_coefs : List ℚ) :
    Except String CoefImage :=
  match (pixel_yxz.zip pixel_coefs).filter (fun pc => pc.2 != 0) with
  | [] => Except.error
      "ValueError: zero-size array to reduction operation minimum which has no identity"
  | p :: rest =>
    let sy := listMinInt p.1.1 (rest.map (fun q => q.1.1))
    let sx := listMinInt p.1.2.1 (rest.map (fun q => q.1.2.1))
    let sz := listMinInt p.1.2.2 (rest.map (fun q => q.1.2.2))
    let my := listMaxInt (p.1.1 - sy) (rest.map (fun q => q.1.1 - sy))
    let mx := listMaxInt (p.1.2.1 - sx) (rest.map (fun q => q.1.2.1 - sx))
    let mz := listMaxInt (p.1.2.2 - sz) (rest.map (fun q => q.1.2.2 - sz))
    Except.ok
      { twoD := (my - my + mz + 1) == 1
        img :=
          { dy := (my + 1).toNat
            dx := (mx + 1).toNat
            dz := (mz + 1).toNat
            val := fun y x z =>
              match (p :: rest).reverse.find? (fun pc =>
                  pc.1.1 - sy == y && pc.1.2.1 - sx == x && pc.1.2.2 - sz == z) with
              | some pc => pc.2
              | none => 0 }
        shift := (sy, sx, sz) }

/-- Tile pixel filter of the pipeline (iss/pipeline/omp.py line 90): a pixel
row of the coefficient matrix is retained iff some gene has a non-zero
coefficient on it (`np.abs(pixel_coefs_tz).max(axis=1) > 0`). -/
def pixelKeep (coefRows : List (List ℚ)) : List Bool :=
  coefRows.map (fun row => row.any (fun c => c != 0))

/-- Column `g` of a row-major coefficient matrix (`pixel_coefs[:, g]`). -/
def geneColumn (coefRows : List (List ℚ)) (g : Nat) : List ℚ :=
  coefRows.map (fun row => row.getD g 0)

/-- All-zero coefficient column: the non-zero selection is empty and
`cropped_coef_image` raises the numpy reduction error. -/
theorem cropped_error_of_all_zero (locs : List (Int × Int × Int)) (coefs : List ℚ)
    (h0 : ∀ c ∈ coefs, c = 0) :
    cropped_coef_image locs coefs = Except.error
      "ValueError: zero-size array to reduction operation minimum which has no identity" := by
  have hf : (locs.zip coefs).filter (fun pc => pc.2 != 0) = [] := by
    rw [List.filter_eq_nil_iff]
    intro pc hpc
    have h2 : pc.2 ∈ coefs := (List.of_mem_zip hpc).2
    simp [h0 _ h2]
  unfold cropped_coef_image
  rw [hf]

/-- A coefficient column with a non-zero entry (and a location list at least
as long) makes `cropped_coef_image` succeed. -/
theorem cropped_ok_of_exists_nonzero (locs : List (Int × Int × Int)) (coefs : List ℚ)
    (hlen : coefs.length ≤ locs.length) (hex : ∃ c ∈ coefs, c ≠ 0) :
    (cropped_coef_image locs coefs).isOk = true := by
  obtain ⟨c, hc, hc0⟩ := hex
  obtain ⟨a, ha⟩ := exists_pair_mem_zip hlen hc
  have hmem : (a, c) ∈ (locs.zip coefs).filter (fun pc => pc.2 != 0) :=
    List.mem_filter.mpr ⟨ha, by simpa using hc0⟩
  unfold cropped_coef_image
  cases hnz : (locs.zip coefs).filter (fun pc => pc.2 != 0) with
  | nil =>
    rw [hnz] at hmem
    exact absurd hmem (List.not_mem_nil _)
  | cons p rest => rfl

/-- C10 (amended): `cropped_coef_image` is defined exactly when the
coefficient column has a non-zero entry: an all-zero column raises the numpy
reduction error (minimum over an empty selection), and a column with a
non-zero entry succeeds.  Callers must therefore guarantee a non-zero
coefficient per gene column; the pipeline row filter alone does not do so
(see the counterexample), it only guarantees that each retained pixel has a
non-zero coefficient for some gene. -/
theorem cropped_coef_image_nonzero_precondition :
    (∀ (locs : List (Int × Int × Int)) (coefs : List ℚ), (∀ c ∈ coefs, c = 0) →
      cropped_coef_image locs coefs = Except.error
        "ValueError: zero-size array to reduction operation minimum which has no identity")
  ∧ (∀ (locs : List (Int × Int × Int)) (coefs : List ℚ), coefs.length ≤ locs.length →
      (∃ c ∈ coefs, c ≠ 0) → (cropped_coef_image locs coefs).isOk = true) :=
  ⟨cropped_error_of_all_zero, cropped_ok_of_exists_nonzero⟩

/-- Witness for `cropped_coef_image_nonzero_precondition`: a one-pixel
all-zero column errors, a one-pixel non-zero column succeeds. -/
theorem cropped_coef_image_nonzero_precondition_witness :
    cropped_coef_image [((0 : Int), 0, 0)] [(0 : ℚ)] = Except.error
      "ValueError: zero-size array to reduction operation minimum which has no identity"
  ∧ (cropped_coef_image [((0 : Int), 0, 0)] [(7 : ℚ)]).isOk = true :=
  ⟨cropped_coef_image_nonzero_precondition.1 _ _ (by intro c hc; simpa using hc),
   cropped_coef_image_nonzero_precondition.2 _ _ (by simp)
     ⟨7, by simp, by norm_num⟩⟩

/-- C10 counterexample to the parenthetical that the pipeline keep-filter
ensures the precondition: the two-pixel coefficient matrix [[1, 0], [2, 0]]
passes the pipeline row filter (`pixelKeep` keeps both pixels because gene 0
is non-zero on both rows), yet the column of gene 1 is all-zero and
`cropped_coef_image` raises on it. -/
theorem cropped_coef_image_pipeline_counterexample :
    pixelKeep [[(1 : ℚ), 0], [(2 : ℚ), 0]] = [true, true]
  ∧ cropped_coef_image [((0 : Int), 0, 0), ((1 : Int), 0, 0)]
      (geneColumn [[(1 : ℚ), 0], [(2 : ℚ), 0]] 1)
      = Except.error
        "ValueError: zero-size array to reduction operation minimum which has no identity" := by
  constructor
  · rfl
  · rfl
/-- C3: round-trip of `cropped_coef_image`.  For a location list with
pairwise-distinct entries, a coefficient column of the same length, and a
successful build: (a) the coordinate shift is the componentwise minimum of
the locations with non-zero coefficient, (b) each non-zero coefficient is
reproduced exactly at its location minus the shift, inside the extents,
(c) every other position holds zero, and (d) each extent is the bounding-box
span of the shifted non-zero locations plus one. -/
theorem cropped_coef_image_roundtrip (locs : List (Int × Int × Int)) (coefs : List ℚ)
    (hlen : coefs.length = locs.length) (hnd : locs.Nodup) (ci : CoefImage)
    (h : cropped_coef_image locs coefs = Except.ok ci) :
    ((∀ lc ∈ locs.zip coefs, lc.2 ≠ 0 →
        ci.shift.1 ≤ lc.1.1 ∧ ci.shift.2.1 ≤ lc.1.2.1 ∧ ci.shift.2.2 ≤ lc.1.2.2)
      ∧ (∃ lc ∈ locs.zip coefs, lc.2 ≠ 0 ∧ lc.1.1 = ci.shift.1)
      ∧ (∃ lc ∈ locs.zip coefs, lc.2 ≠ 0 ∧ lc.1.2.1 = ci.shift.2.1)
      ∧ (∃ lc ∈ locs.zip coefs, lc.2 ≠ 0 ∧ lc.1.2.2 = ci.shift.2.2))
  ∧ (∀ lc ∈ locs.zip coefs, lc.2 ≠ 0 →
        ci.img.inBounds (lc.1.1 - ci.shift.1) (lc.1.2.1 - ci.shift.2.1) (lc.1.2.2 - ci.shift.2.2)
      ∧ ci.img.val (lc.1.1 - ci.shift.1) (lc.1.2.1 - ci.shift.2.1) (lc.1.2.2 - ci.shift.2.2)
          = lc.2)
  ∧ (∀ y x z : Int,
        (∀ lc ∈ locs.zip coefs, lc.2 ≠ 0 →
          ¬(lc.1.1 - ci.shift.1 = y ∧ lc.1.2.1 - ci.shift.2.1 = x ∧
            lc.1.2.2 - ci.shift.2.2 = z)) →
        ci.img.val y x z = 0)
  ∧ ((∀ lc ∈ locs.zip coefs, lc.2 ≠ 0 →
        lc.1.1 - ci.shift.1 + 1 ≤ (ci.img.dy : Int)
        ∧ lc.1.2.1 - ci.shift.2.1 + 1 ≤ (ci.img.dx : Int)
        ∧ lc.1.2.2 - ci.shift.2.2 + 1 ≤ (ci.img.dz : Int))
      ∧ (∃ lc ∈ locs.zip coefs, lc.2 ≠ 0 ∧ lc.1.1 - ci.shift.1 + 1 = (ci.img.dy : Int))
      ∧ (∃ lc ∈ locs.zip coefs, lc.2 ≠ 0 ∧ lc.1.2.1 - ci.shift.2.1 + 1 = (ci.img.dx : Int))
      ∧ (∃ lc ∈ locs.zip coefs, lc.2 ≠ 0 ∧ lc.1.2.2 - ci.shift.2.2 + 1 = (ci.img.dz : Int))) := by
  cases hnz : (locs.zip coefs).filter (fun pc => pc.2 != 0) with
  | nil =>
    unfold cropped_coef_image at h
    rw [hnz] at h
    exact absurd h (by simp)
  | cons p rest =>
    unfold cropped_coef_image at h
    rw [hnz] at h
    rw [Except.ok.injEq] at h
    subst h
    dsimp only
    set sy := listMinInt p.1.1 (rest.map (fun q => q.1.1)) with hsy
    set sx := listMinInt p.1.2.1 (rest.map (fun q => q.1.2.1)) with hsx
    set sz := listMinInt p.1.2.2 (rest.map (fun q => q.1.2.2)) with hsz
    set my := listMaxInt (p.1.1 - sy) (rest.map (fun q => q.1.1 - sy)) with hmy
    set mx := listMaxInt (p.1.2.1 - sx) (rest.map (fun q => q.1.2.1 - sx)) with hmx
    set mz := listMaxInt (p.1.2.2 - sz) (rest.map (fun q => q.1.2.2 - sz)) with hmz
    have hmem_iff : ∀ lc, lc ∈ p :: rest ↔ lc ∈ locs.zip coefs ∧ lc.2 ≠ 0 := by
      intro lc
      rw [← hnz, List.mem_filter]
      simp
    have hsy_le : ∀ lc ∈ p :: rest, sy ≤ lc.1.1 := by
      intro lc hlc
      rcases List.mem_cons.mp hlc with h1 | h1
      · rw [h1]; exact listMinInt_le_seed _ _
      · exact listMinInt_le_mem _ _ _ (List.mem_map_of_mem (fun q => q.1.1) h1)
    have hsx_le : ∀ lc ∈ p :: rest, sx ≤ lc.1.2.1 := by
      intro lc hlc
      rcases List.mem_cons.mp hlc with h1 | h1
      · rw [h1]; exact listMinInt_le_seed _ _
      · exact listMinInt_le_mem _ _ _ (List.mem_map_of_mem (fun q => q.1.2.1) h1)
    have hsz_le : ∀ lc ∈ p :: rest, sz ≤ lc.1.2.2 := by
      intro lc hlc
      rcases List.mem_cons.mp hlc with h1 | h1
      · rw [h1]; exact listMinInt_le_seed _ _
      · exact listMinInt_le_mem _ _ _ (List.mem_map_of_mem (fun q => q.1.2.2) h1)
    have hmy_ge : ∀ lc ∈ p :: rest, lc.1.1 - sy ≤ my := by
      intro lc hlc
      rcases List.mem_cons.mp hlc with h1 | h1
      · rw [h1]; exact listMaxInt_ge_seed _ _
      · exact listMaxInt_ge_mem _ _ _ (List.mem_map_of_mem (fun q => q.1.1 - sy) h1)
    have hmx_ge : ∀ lc ∈ p :: rest, lc.1.2.1 - sx ≤ mx := by
      intro lc hlc
      rcases List.mem_cons.mp hlc with h1 | h1
      · rw [h1]; exact listMaxInt_ge_seed _ _
      · exact listMaxInt_ge_mem _ _ _ (List.mem_map_of_mem (fun q => q.1.2.1 - sx) h1)
    have hmz_ge : ∀ lc ∈ p :: rest, lc.1.2.2 - sz ≤ mz := by
      intro lc hlc
      rcases List.mem_cons.mp hlc with h1 | h1
      · rw [h1]; exact listMaxInt_ge_seed _ _
      · exact listMaxInt_ge_mem _ _ _ (List.mem_map_of_mem (fun q => q.1.2.2 - sz) h1)
    have hp_mem : p ∈ p :: rest := List.mem_cons_self p rest
    have hmy0 : 0 ≤ my := le_trans (by have := hsy_le p hp_mem; omega) (hmy_ge p hp_mem)
    have hmx0 : 0 ≤ mx := le_trans (by have := hsx_le p hp_mem; omega) (hmx_ge p hp_mem)
    have hmz0 : 0 ≤ mz := le_trans (by have := hsz_le p hp_mem; omega) (hmz_ge p hp_mem)
    have hdy : (((my + 1).toNat : Nat) : Int) = my + 1 := Int.toNat_of_nonneg (by omega)
    have hdx : (((mx + 1).toNat : Nat) : Int) = mx + 1 := Int.toNat_of_nonneg (by omega)
    have hdz : (((mz + 1).toNat : Nat) : Int) = mz + 1 := Int.toNat_of_nonneg (by omega)
    have hnd_nz : ((p :: rest).map Prod.fst).Nodup := by
      have hsub : (p :: rest).Sublist (locs.zip coefs) := hnz ▸ List.filter_sublist _
      have hzn : ((locs.zip coefs).map Prod.fst).Nodup := by
        rw [List.map_fst_zip locs coefs (le_of_eq hlen.symm)]
        exact hnd
      exact hzn.sublist (hsub.map Prod.fst)
    have hfind_at : ∀ lc ∈ p :: rest,
        ((p :: rest).reverse.find? (fun pc =>
          pc.1.1 - sy == lc.1.1 - sy && pc.1.2.1 - sx == lc.1.2.1 - sx &&
          pc.1.2.2 - sz == lc.1.2.2 - sz)) = some lc := by
      intro lc hlc
      have hsome : ((p :: rest).reverse.find? (fun pc =>
          pc.1.1 - sy == lc.1.1 - sy && pc.1.2.1 - sx == lc.1.2.1 - sx &&
          pc.1.2.2 - sz == lc.1.2.2 - sz)).isSome := by
        rw [List.find?_isSome]
        exact ⟨lc, List.mem_reverse.mpr hlc, by simp⟩
      obtain ⟨q, hq⟩ := Option.isSome_iff_exists.mp hsome
      have hqmem : q ∈ p :: rest := List.mem_reverse.mp (List.mem_of_find?_eq_some hq)
      have hqpred := List.find?_some hq
      simp only [Bool.and_eq_true, beq_iff_eq] at hqpred
      have hkey : q.1 = lc.1 := by
        have h1 : q.1.1 = lc.1.1 := by omega
        have h2 : q.1.2.1 = lc.1.2.1 := by omega
        have h3 : q.1.2.2 = lc.1.2.2 := by omega
        exact Prod.ext h1 (Prod.ext h2 h3)
      rw [hq, keyed_unique _ hnd_nz q hqmem lc hlc hkey]
    refine ⟨⟨?_, ?_, ?_, ?_⟩, ?_, ?_, ⟨?_, ?_, ?_, ?_⟩⟩
    · intro lc hlc hne
      have hm := (hmem_iff lc).mpr ⟨hlc, hne⟩
      exact ⟨hsy_le lc hm, hsx_le lc hm, hsz_le lc hm⟩
    · rcases listMinInt_attained p.1.1 (rest.map (fun q => q.1.1)) with h1 | h1
      · obtain ⟨hz1, hz2⟩ := (hmem_iff p).mp hp_mem
        exact ⟨p, hz1, hz2, h1.symm⟩
      · obtain ⟨q, hq, hq2⟩ := List.mem_map.mp h1
        obtain ⟨hz1, hz2⟩ := (hmem_iff q).mp (List.mem_cons.mpr (Or.inr hq))
        exact ⟨q, hz1, hz2, hq2.symm ▸ rfl⟩
    · rcases listMinInt_attained p.1.2.1 (rest.map (fun q => q.1.2.1)) with h1 | h1
      · obtain ⟨hz1, hz2⟩ := (hmem_iff p).mp hp_mem
        exact ⟨p, hz1, hz2, h1.symm⟩
      · obtain ⟨q, hq, hq2⟩ := List.mem_map.mp h1
        obtain ⟨hz1, hz2⟩ := (hmem_iff q).mp (List.mem_cons.mpr (Or.inr hq))
        exact ⟨q, hz1, hz2, hq2.symm ▸ rfl⟩
    · rcases listMinInt_attained p.1.2.2 (rest.map (fun q => q.1.2.2)) with h1 | h1
      · obtain ⟨hz1, hz2⟩ := (hmem_iff p).mp hp_mem
        exact ⟨p, hz1, hz2, h1.symm⟩
      · obtain ⟨q, hq, hq2⟩ := List.mem_map.mp h1
        obtain ⟨hz1, hz2⟩ := (hmem_iff q).mp (List.mem_cons.mpr (Or.inr hq))
        exact ⟨q, hz1, hz2, hq2.symm ▸ rfl⟩
    · intro lc hlc hne
      have hm := (hmem_iff lc).mpr ⟨hlc, hne⟩
      refine ⟨?_, ?_⟩
      · show 0 ≤ lc.1.1 - sy ∧ lc.1.1 - sy < (((my + 1).toNat : Nat) : Int) ∧
          0 ≤ lc.1.2.1 - sx ∧ lc.1.2.1 - sx < (((mx + 1).toNat : Nat) : Int) ∧
          0 ≤ lc.1.2.2 - sz ∧ lc.1.2.2 - sz < (((mz + 1).toNat : Nat) : Int)
        refine ⟨by have := hsy_le lc hm; omega, by have := hmy_ge lc hm; omega,
          by have := hsx_le lc hm; omega, by have := hmx_ge lc hm; omega,
          by have := hsz_le lc hm; omega, by have := hmz_ge lc hm; omega⟩
      · rw [hfind_at lc hm]
    · intro y x z hno
      cases hfind : ((p :: rest).reverse.find? (fun pc =>
          pc.1.1 - sy == y && pc.1.2.1 - sx == x && pc.1.2.2 - sz == z)) with
      | none => rfl
      | some q =>
        exfalso
        have hqmem : q ∈ p :: rest := List.mem_reverse.mp (List.mem_of_find?_eq_some hfind)
        have hqpred := List.find?_some hfind
        simp only [Bool.and_eq_true, beq_iff_eq] at hqpred
        obtain ⟨hz1, hz2⟩ := (hmem_iff q).mp hqmem
        exact hno q hz1 hz2 ⟨hqpred.1.1, hqpred.1.2, hqpred.2⟩
    · intro lc hlc hne
      have hm := (hmem_iff lc).mpr ⟨hlc, hne⟩
      show lc.1.1 - sy + 1 ≤ (((my + 1).toNat : Nat) : Int) ∧
        lc.1.2.1 - sx + 1 ≤ (((mx + 1).toNat : Nat) : Int) ∧
        lc.1.2.2 - sz + 1 ≤ (((mz + 1).toNat : Nat) : Int)
      refine ⟨?_, ?_, ?_⟩
      · have := hmy_ge lc hm; omega
      · have := hmx_ge lc hm; omega
      · have := hmz_ge lc hm; omega
    · rcases listMaxInt_attained (p.1.1 - sy) (rest.map (fun q => q.1.1 - sy)) with h1 | h1
      · obtain ⟨hz1, hz2⟩ := (hmem_iff p).mp hp_mem
        refine ⟨p, hz1, hz2, ?_⟩
        show p.1.1 - sy + 1 = (((my + 1).toNat : Nat) : Int)
        rw [← hmy] at h1
        omega
      · obtain ⟨q, hq, hq2⟩ := List.mem_map.mp h1
        obtain ⟨hz1, hz2⟩ := (hmem_iff q).mp (List.mem_cons.mpr (Or.inr hq))
        refine ⟨q, hz1, hz2, ?_⟩
        show q.1.1 - sy + 1 = (((my + 1).toNat : Nat) : Int)
        rw [← hmy] at hq2
        omega
    · rcases listMaxInt_attained (p.1.2.1 - sx) (rest.map (fun q => q.1.2.1 - sx)) with h1 | h1
      · obtain ⟨hz1, hz2⟩ := (hmem_iff p).mp hp_mem
        refine ⟨p, hz1, hz2, ?_⟩
        show p.1.2.1 - sx + 1 = (((mx + 1).toNat : Nat) : Int)
        rw [← hmx] at h1
        omega
      · obtain ⟨q, hq, hq2⟩ := List.mem_map.mp h1
        obtain ⟨hz1, hz2⟩ := (hmem_iff q).mp (List.mem_cons.mpr (Or.inr hq))
        refine ⟨q, hz1, hz2, ?_⟩
        show q.1.2.1 - sx + 1 = (((mx + 1).toNat : Nat) : Int)
        rw [← hmx] at hq2
        omega
    · rcases listMaxInt_attained (p.1.2.2 - sz) (rest.map (fun q => q.1.2.2 - sz)) with h1 | h1
      · obtain ⟨hz1, hz2⟩ := (hmem_iff p).mp hp_mem
        refine ⟨p, hz1, hz2, ?_⟩
        show p.1.2.2 - sz + 1 = (((mz + 1).toNat : Nat) : Int)
        rw [← hmz] at h1
        omega
      · obtain ⟨q, hq, hq2⟩ := List.mem_map.mp h1
        obtain ⟨hz1, hz2⟩ := (hmem_iff q).mp (List.mem_cons.mpr (Or.inr hq))
        refine ⟨q, hz1, hz2, ?_⟩
        show q.1.2.2 - sz + 1 = (((mz + 1).toNat : Nat) : Int)
        rw [← hmz] at hq2
        omega

/-- Witness for `cropped_coef_image_roundtrip`: a single pixel at the origin
with coefficient 5 is rebuilt with value 5 at the shifted origin. -/
theorem cropped_coef_image_roundtrip_witness :
    Except.map (fun ci => ci.img.val 0 0 0) (cropped_coef_image [((0 : Int), 0, 0)] [(5 : ℚ)])
      = Except.ok 5 := by
  have hok := cropped_ok_of_exists_nonzero [((0 : Int), 0, 0)] [(5 : ℚ)]
    (by simp) ⟨5, by simp, by norm_num⟩
  cases hE : cropped_coef_image [((0 : Int), 0, 0)] [(5 : ℚ)] with
  | error e =>
    rw [hE] at hok
    exact Bool.noConfusion hok
  | ok ci =>
    have h := cropped_coef_image_roundtrip [((0 : Int), 0, 0)] [(5 : ℚ)]
      (by simp) (by simp) ci hE
    obtain ⟨⟨hle, h1, h2, h3⟩, hb, hrest⟩ := h
    obtain ⟨lc1, hm1, hnz1, he1⟩ := h1
    obtain ⟨lc2, hm2, hnz2, he2⟩ := h2
    obtain ⟨lc3, hm3, hnz3, he3⟩ := h3
    have hmem : ((((0 : Int), (0 : Int), (0 : Int)), (5 : ℚ))) ∈
        ([((0 : Int), 0, 0)].zip [(5 : ℚ)]) := by simp
    have hv := hb _ hmem (by norm_num)
    have e1 : lc1 = (((0 : Int), (0 : Int), (0 : Int)), (5 : ℚ)) := by simpa using hm1
    have e2 : lc2 = (((0 : Int), (0 : Int), (0 : Int)), (5 : ℚ)) := by simpa using hm2
    have e3 : lc3 = (((0 : Int), (0 : Int), (0 : Int)), (5 : ℚ)) := by simpa using hm3
    rw [e1] at he1
    rw [e2] at he2
    rw [e3] at he3
    show Except.ok (ci.img.val 0 0 0) = Except.ok 5
    rw [Except.ok.injEq]
    have hv2 := hv.2
    simp only at he1 he2 he3
    rw [← he1, ← he2, ← he3] at hv2
    simpa using hv2

/-! ### NeighborhoodFilter: `imfilter` and `count_spot_neighbours` -/

/-- Finite rational sum over an index range. -/
def sumRange (n : Nat) (f : Nat → ℚ) : ℚ := ∑ i ∈ Finset.range n, f i

/-- Source `ensure_odd_kernel` (morphology.py lines 235-257) for rank 3 with
`pad_location = start`: every even extent gains one leading plane of zeros. -/
def ensureOddKernel3 (g : Grid3 ℚ) : Grid3 ℚ :=
  let py : Nat := if g.dy % 2 = 0 then 1 else 0
  let px : Nat := if g.dx % 2 = 0 then 1 else 0
  let pz : Nat := if g.dz % 2 = 0 then 1 else 0
  { dy := g.dy + py
    dx := g.dx + px
    dz := g.dz + pz
    val := fun y x z =>
      if y < (py : Int) ∨ x < (px : Int) ∨ z < (pz : Int) then 0
      else g.val (y - py) (x - px) (z - pz) }

/-- Integer mask viewed as a float kernel (`astype(np.float32)`, exact over
`ℚ`). -/
def gridToQ (f : Grid3 Int) : Grid3 ℚ :=
  { dy := f.dy, dx := f.dx, dz := f.dz, val := fun y x z => ((f.val y x z : Int) : ℚ) }

/-- Source `imfilter` (morphology.py lines 289-324) for rank 3 with the
default correlation mode and constant zero padding: the kernel is made odd by
padding at the start, and `out[p] = sum over kernel positions k of
kernel[k] * image[p + k - c]` with `c = (size - 1) / 2` the kernel centre and
out-of-bounds image values 0 (`scipy.ndimage.correlate` with
`mode = constant`, `cval = 0`).  Output extents equal image extents. -/
def imfilter3 (image kernel : Grid3 ℚ) : Grid3 ℚ :=
  let K := ensureOddKernel3 kernel
  let cy : Int := (((K.dy - 1) / 2 : Nat) : Int)
  let cx : Int := (((K.dx - 1) / 2 : Nat) : Int)
  let cz : Int := (((K.dz - 1) / 2 : Nat) : Int)
  { dy := image.dy
    dx := image.dx
    dz := image.dz
    val := fun y x z =>
      sumRange K.dy (fun a => sumRange K.dx (fun b => sumRange K.dz (fun c =>
        K.val a b c * image.at0 (y + ((a : Int) - cy)) (x + ((b : Int) - cx))
          (z + ((c : Int) - cz))))) }

/-- Positive-sign indicator image, `(image > 0).astype(np.float32)`
(iss/omp/spots.py line 66). -/
def posIndicator (image : Grid3 ℚ) : Grid3 ℚ :=
  { dy := image.dy, dx := image.dx, dz := image.dz
    val := fun y x z => if 0 < image.val y x z then 1 else 0 }

/-- Negative-sign indicator image, `(image < 0).astype(np.float32)`
(iss/omp/spots.py line 78). -/
def negIndicator (image : Grid3 ℚ) : Grid3 ℚ :=
  { dy := image.dy, dx := image.dx, dz := image.dz
    val := fun y x z => if image.val y x z < 0 then 1 else 0 }

/-- Whether all in-range entries of a mask are 0 or 1 (the precondition
checks of `count_spot_neighbours`, iss/omp/spots.py lines 50-54). -/
def filterIs01 (f : Grid3 Int) : Bool :=
  (List.range f.dy).all (fun y => (List.range f.dx).all (fun x =>
    (List.range f.dz).all (fun z =>
      f.val (y : Int) (x : Int) (z : Int) == 0 || f.val (y : Int) (x : Int) (z : Int) == 1)))

/-- Middle z plane of a rank-3 filter, as a unit-z-extent grid.  This models
both dimension corrections of `count_spot_neighbours` for a rank-2 image: a
filter with unit z extent is averaged over that axis (iss/omp/spots.py lines
43-49), which on a single plane is the plane itself, and a filter with larger
z extent is replaced by its middle plane `floor(dz / 2)` with a warning
(lines 68-70, 80-82); `floor(dz / 2) = 0` when `dz = 1`, so one expression
covers both. -/
def midZPlane (f : Grid3 Int) : Grid3 Int :=
  { dy := f.dy, dx := f.dx, dz := 1
    val := fun y x _ => f.val y x ((f.dz / 2 : Nat) : Int) }

/-- Source `count_spot_neighbours` (iss/omp/spots.py lines 12-85), embedded
for the two call shapes the repository uses: a rank-3 image with rank-3
filters (`img2d = false`, no dimension correction applies), and a rank-2
image (embedded as a grid of unit z extent with `img2d = true`, spots carrying
`z = 0`) with rank-3 filters, reduced to their middle z plane as in the
source.  Checks mirror the source order: the 0/1 check on the negative filter
when given, then the 0/1 check on the positive filter, then the bounds check
on every spot; each failure is the corresponding `ValueError` or
`OutOfBoundsError`.  The counts are the correlation-filtered indicator images
sampled at the spots and rounded (the `np.round` removes float32 noise and is
the identity over `ℚ`). -/
def count_spot_neighbours (image : Grid3 ℚ) (img2d : Bool) (spots : List (Int × Int × Int))
    (pos_filter : Grid3 Int) (neg_filter : Option (Grid3 Int)) :
    Except String (List Int × Option (List Int)) :=
  if neg_filter.any (fun nf => !filterIs01 nf) then
    Except.error "ValueError: neg_filter contains values other than 0 or 1."
  else if !filterIs01 pos_filter then
    Except.error "ValueError: pos_filter contains values other than 0 or 1."
  else if spots.any (fun s => !decide (image.inBounds s.1 s.2.1 s.2.2)) then
    Except.error "OutOfBoundsError: spot_yxz outside image bounds"
  else
    let posF := if img2d then midZPlane pos_filter else pos_filter
    let posNeighbourImage := imfilter3 (posIndicator image) (gridToQ posF)
    let nPos := spots.map (fun s => round (posNeighbourImage.val s.1 s.2.1 s.2.2))
    match neg_filter with
    | none => Except.ok (nPos, none)
    | some nf =>
      let negF := if img2d then midZPlane nf else nf
      let negNeighbourImage := imfilter3 (negIndicator image) (gridToQ negF)
      Except.ok (nPos, some (spots.map (fun s =>
        round (negNeighbourImage.val s.1 s.2.1 s.2.2))))

/-- A leading zero can be dropped from a rational range sum. -/
theorem sumRange_pad_one (d : Nat) (f : Nat → ℚ) (hz : f 0 = 0) :
    sumRange (d + 1) f = sumRange d (fun i => f (i + 1)) := by
  unfold sumRange
  rw [Finset.sum_range_succ' f d, hz, add_zero]

/-- Dropping a start pad of at most one zero entry from a range sum. -/
theorem sumRange_pad (d p : Nat) (hp : p ≤ 1) (f : Nat → ℚ) (hz : ∀ i, i < p → f i = 0) :
    sumRange (d + p) f = sumRange d (fun i => f (i + p)) := by
  interval_cases p
  · rfl
  · exact sumRange_pad_one d f (hz 0 (by omega))

/-- A range sum over three indices with a congruent integrand. -/
theorem sumRange_congr (n : Nat) (f g : Nat → ℚ) (h : ∀ i, i < n → f i = g i) :
    sumRange n f = sumRange n g := by
  unfold sumRange
  exact Finset.sum_congr rfl (fun i hi => h i (Finset.mem_range.mp hi))

/-- A constant range sum. -/
theorem sumRange_const (n : Nat) (q : ℚ) : sumRange n (fun _ => q) = n * q := by
  unfold sumRange
  rw [Finset.sum_const, Finset.card_range, nsmul_eq_mul]

/-- Dropping start pads of at most one zero plane per axis from a triple
range sum. -/
theorem sumRange3_pad (dy dx dz py px pz : Nat) (hpy : py ≤ 1) (hpx : px ≤ 1) (hpz : pz ≤ 1)
    (f : Nat → Nat → Nat → ℚ)
    (hz : ∀ a b c, (a < py ∨ b < px ∨ c < pz) → f a b c = 0) :
    sumRange (dy + py) (fun a => sumRange (dx + px) (fun b => sumRange (dz + pz) (fun c => f a b c)))
      = sumRange dy (fun a => sumRange dx (fun b => sumRange dz (fun c =>
          f (a + py) (b + px) (c + pz)))) := by
  have hA : ∀ i, i < py →
      (sumRange (dx + px) fun b => sumRange (dz + pz) fun c => f i b c) = 0 := by
    intro i hi
    unfold sumRange
    exact Finset.sum_eq_zero (fun b hb => Finset.sum_eq_zero (fun c hc => hz _ _ _ (Or.inl hi)))
  rw [sumRange_pad dy py hpy _ hA]
  apply sumRange_congr
  intro a ha
  have hB : ∀ i, i < px → (sumRange (dz + pz) fun c => f (a + py) i c) = 0 := by
    intro i hi
    unfold sumRange
    exact Finset.sum_eq_zero (fun c hc => hz _ _ _ (Or.inr (Or.inl hi)))
  rw [sumRange_pad dx px hpx _ hB]
  apply sumRange_congr
  intro b hb
  exact sumRange_pad dz pz hpz _ (fun i hi => hz _ _ _ (Or.inr (Or.inr hi)))

/-- Value of the all-ones correlation over an all-positive image: at a point
whose footprint stays inside the image, the filter response is the total
pixel count of the mask. -/
theorem imfilter3_all_ones_at (image : Grid3 ℚ) (mask : Grid3 Int) (y x z : Int)
    (hpos : ∀ y1 x1 z1 : Int, image.inBounds y1 x1 z1 → 0 < image.val y1 x1 z1)
    (hones : ∀ y1 x1 z1 : Int, mask.inBounds y1 x1 z1 → mask.val y1 x1 z1 = 1)
    (hfoot : ∀ a b c : Int, a.natAbs ≤ mask.dy → b.natAbs ≤ mask.dx → c.natAbs ≤ mask.dz →
      image.inBounds (y + a) (x + b) (z + c)) :
    (imfilter3 (posIndicator image) (gridToQ mask)).val y x z
      = ((mask.dy * mask.dx * mask.dz : Nat) : ℚ) := by
  unfold imfilter3 ensureOddKernel3 gridToQ
  dsimp only
  set py : Nat := if mask.dy % 2 = 0 then 1 else 0 with hpy
  set px : Nat := if mask.dx % 2 = 0 then 1 else 0 with hpx
  set pz : Nat := if mask.dz % 2 = 0 then 1 else 0 with hpz
  have hpy1 : py ≤ 1 := by rw [hpy]; split <;> omega
  have hpx1 : px ≤ 1 := by rw [hpx]; split <;> omega
  have hpz1 : pz ≤ 1 := by rw [hpz]; split <;> omega
  set cy : Int := (((mask.dy + py - 1) / 2 : Nat) : Int) with hcy
  set cx : Int := (((mask.dx + px - 1) / 2 : Nat) : Int) with hcx
  set cz : Int := (((mask.dz + pz - 1) / 2 : Nat) : Int) with hcz
  have hzero : ∀ a b c : Nat, (a < py ∨ b < px ∨ c < pz) →
      (if (a : Int) < (py : Int) ∨ (b : Int) < (px : Int) ∨ (c : Int) < (pz : Int) then (0 : ℚ)
       else ((mask.val ((a : Int) - py) ((b : Int) - px) ((c : Int) - pz) : Int) : ℚ)) *
        (posIndicator image).at0 (y + ((a : Int) - cy)) (x + ((b : Int) - cx))
          (z + ((c : Int) - cz)) = 0 := by
    intro a b c h
    have hP : (a : Int) < (py : Int) ∨ (b : Int) < (px : Int) ∨ (c : Int) < (pz : Int) := by
      rcases h with h | h | h
      · exact Or.inl (by exact_mod_cast h)
      · exact Or.inr (Or.inl (by exact_mod_cast h))
      · exact Or.inr (Or.inr (by exact_mod_cast h))
    rw [if_pos hP, zero_mul]
  rw [sumRange3_pad mask.dy mask.dx mask.dz py px pz hpy1 hpx1 hpz1 _ hzero]
  have hterm : ∀ a, a < mask.dy → ∀ b, b < mask.dx → ∀ c, c < mask.dz →
      (if ((a + py : Nat) : Int) < (py : Int) ∨ ((b + px : Nat) : Int) < (px : Int) ∨
          ((c + pz : Nat) : Int) < (pz : Int) then (0 : ℚ)
       else ((mask.val (((a + py : Nat) : Int) - py) (((b + px : Nat) : Int) - px)
          (((c + pz : Nat) : Int) - pz) : Int) : ℚ)) *
        (posIndicator image).at0 (y + (((a + py : Nat) : Int) - cy))
          (x + (((b + px : Nat) : Int) - cx)) (z + (((c + pz : Nat) : Int) - cz)) = 1 := by
    intro a ha b hb c hc
    have hnP : ¬(((a + py : Nat) : Int) < (py : Int) ∨ ((b + px : Nat) : Int) < (px : Int) ∨
        ((c + pz : Nat) : Int) < (pz : Int)) := by
      push_neg
      refine ⟨by push_cast; omega, by push_cast; omega, by push_cast; omega⟩
    rw [if_neg hnP]
    have e1 : ((a + py : Nat) : Int) - (py : Int) = (a : Int) := by push_cast; ring
    have e2 : ((b + px : Nat) : Int) - (px : Int) = (b : Int) := by push_cast; ring
    have e3 : ((c + pz : Nat) : Int) - (pz : Int) = (c : Int) := by push_cast; ring
    rw [e1, e2, e3]
    have hmv : mask.val (a : Int) (b : Int) (c : Int) = 1 := by
      apply hones
      exact ⟨by omega, by exact_mod_cast ha, by omega, by exact_mod_cast hb, by omega,
        by exact_mod_cast hc⟩
    rw [hmv]
    have hin : image.inBounds (y + (((a + py : Nat) : Int) - cy))
        (x + (((b + px : Nat) : Int) - cx)) (z + (((c + pz : Nat) : Int) - cz)) := by
      apply hfoot
      · rw [hcy]; push_cast; omega
      · rw [hcx]; push_cast; omega
      · rw [hcz]; push_cast; omega
    have hin2 := hin
    unfold Grid3.inBounds at hin2
    unfold Grid3.at0 posIndicator
    dsimp only
    rw [if_pos hin2, if_pos (hpos _ _ _ hin)]
    norm_num
  calc sumRange mask.dy (fun a => sumRange mask.dx (fun b => sumRange mask.dz (fun c =>
        (if ((a + py : Nat) : Int) < (py : Int) ∨ ((b + px : Nat) : Int) < (px : Int) ∨
            ((c + pz : Nat) : Int) < (pz : Int) then (0 : ℚ)
         else ((mask.val (((a + py : Nat) : Int) - py) (((b + px : Nat) : Int) - px)
            (((c + pz : Nat) : Int) - pz) : Int) : ℚ)) *
          (posIndicator image).at0 (y + (((a + py : Nat) : Int) - cy))
            (x + (((b + px : Nat) : Int) - cx)) (z + (((c + pz : Nat) : Int) - cz)))))
      = sumRange mask.dy (fun _ => sumRange mask.dx (fun _ => sumRange mask.dz (fun _ => (1 : ℚ)))) := by
        apply sumRange_congr
        intro a ha
        apply sumRange_congr
        intro b hb
        apply sumRange_congr
        intro c hc
        exact hterm a ha b hb c hc
    _ = ((mask.dy * mask.dx * mask.dz : Nat) : ℚ) := by
        rw [sumRange_const, sumRange_const, sumRange_const]
        push_cast
        ring

/-- C7: `count_spot_neighbours` with an all-ones mask over an all-positive
rank-3 image returns, at every query location whose mask footprint lies fully
inside the image, exactly the total pixel count of the mask. -/
theorem count_neighbours_all_ones (image : Grid3 ℚ) (mask : Grid3 Int)
    (spots : List (Int × Int × Int))
    (hpos : ∀ y x z : Int, image.inBounds y x z → 0 < image.val y x z)
    (hones : ∀ y x z : Int, mask.inBounds y x z → mask.val y x z = 1)
    (hfoot : ∀ s ∈ spots, ∀ a b c : Int, a.natAbs ≤ mask.dy → b.natAbs ≤ mask.dx →
      c.natAbs ≤ mask.dz → image.inBounds (s.1 + a) (s.2.1 + b) (s.2.2 + c)) :
    count_spot_neighbours image false spots mask none
      = Except.ok (spots.map (fun _ => ((mask.dy * mask.dx * mask.dz : Nat) : Int)), none) := by
  have h01 : filterIs01 mask = true := by
    unfold filterIs01
    simp only [List.all_eq_true, List.mem_range]
    intro a ha b hb c hc
    rw [hones _ _ _ ⟨by omega, by exact_mod_cast ha, by omega, by exact_mod_cast hb, by omega,
      by exact_mod_cast hc⟩]
    simp
  have hib : ∀ s ∈ spots, image.inBounds s.1 s.2.1 s.2.2 := by
    intro s hs
    have h := hfoot s hs 0 0 0 (by simp) (by simp) (by simp)
    simpa using h
  have hchk : (spots.any (fun s => !decide (image.inBounds s.1 s.2.1 s.2.2))) = false := by
    rw [List.any_eq_false]
    intro s hs
    simp [hib s hs]
  unfold count_spot_neighbours
  rw [h01, hchk]
  simp only [Option.any_none, Bool.not_true, Bool.false_eq_true, if_false]
  refine congrArg Except.ok (Prod.ext ?_ rfl)
  apply List.map_congr_left
  intro s hs
  rw [imfilter3_all_ones_at image mask s.1 s.2.1 s.2.2 hpos hones
    (fun a b c ha hb hc => hfoot s hs a b c ha hb hc)]
  exact round_natCast _

/-- Witness for `count_neighbours_all_ones`: a 3x3x3 all-ones image, a
1x1x1 all-ones mask, and the central query point give count 1. -/
theorem count_neighbours_all_ones_witness :
    count_spot_neighbours (Grid3.mk 3 3 3 (fun _ _ _ => (1 : ℚ))) false [((1 : Int), 1, 1)]
      (Grid3.mk 1 1 1 (fun _ _ _ => (1 : Int))) none
      = Except.ok ([(1 : Int)], none) := by
  have h := count_neighbours_all_ones (Grid3.mk 3 3 3 (fun _ _ _ => (1 : ℚ)))
    (Grid3.mk 1 1 1 (fun _ _ _ => (1 : Int))) [((1 : Int), 1, 1)]
    (fun y x z _ => by norm_num)
    (fun y x z _ => rfl)
    (by
      intro s hs a b c ha hb hc
      have hseq : s = ((1 : Int), 1, 1) := by simpa using hs
      subst hseq
      dsimp only at ha hb hc
      unfold Grid3.inBounds
      dsimp only
      omega)
  simpa using h

/-! ### TileDeduplicator (iss/pipeline/omp.py lines 129-135) -/

/-- Squared planar distance between two rational points. -/
def sqDist2 (a b : ℚ × ℚ) : ℚ := (a.1 - b.1) ^ 2 + (a.2 - b.2) ^ 2

/-- Index of the nearest tile centre in two dimensions
(`NearestNeighbors(n_neighbors=1)` over `tile_centres[:, :2]`).  An exact
distance tie resolves to the lowest index; no claim below depends on tie
behaviour, each is stated away from ties.  An empty centre list yields index
0 (the library would reject the fit). -/
def nearestTileCentre (centres : List (ℚ × ℚ)) (q : ℚ × ℚ) : Nat :=
  match centres.enum.argmin (fun ic => sqDist2 ic.2 q) with
  | some ic => ic.1
  | none => 0

/-- Global planar position of a spot: its local yx plus the origin of the
tile that produced it (`spot_info[:, :3] + tile_origin[spot_info[:, 6]]`,
restricted to yx). -/
def spotGlobal (tile_origin : List (ℚ × ℚ)) (local_yx : Int × Int) (t : Nat) : ℚ × ℚ :=
  ((local_yx.1 : ℚ) + (tile_origin.getD t (0, 0)).1,
   (local_yx.2 : ℚ) + (tile_origin.getD t (0, 0)).2)

/-- Planar centre of tile `j`: its origin plus the common centre offset
(`tile_centres = tile_origin + nbp_basic.tile_centre`). -/
def tileCentreOf (tile_origin : List (ℚ × ℚ)) (tile_centre : ℚ × ℚ) (j : Nat) : ℚ × ℚ :=
  ((tile_origin.getD j (0, 0)).1 + tile_centre.1, (tile_origin.getD j (0, 0)).2 + tile_centre.2)

/-- Source duplicate test (iss/pipeline/omp.py lines 129-135): tile centres
are `tile_origin + tile_centre` (per tile, the same centre offset); a spot
produced by tile `t` sits globally at its local yx plus the origin of `t`;
the spot is not a duplicate iff its nearest tile centre is `t`.  The source
does this in two dimensions only (`[:, :2]`), so origins, the centre offset
and locals are planar here, with the z components dropped. -/
def spot_not_duplicate (tile_origin : List (ℚ × ℚ)) (tile_centre : ℚ × ℚ)
    (local_yx : Int × Int) (t : Nat) : Bool :=
  let tile_centres := tile_origin.map (fun o => (o.1 + tile_centre.1, o.2 + tile_centre.2))
  nearestTileCentre tile_centres (spotGlobal tile_origin local_yx t) == t

/-- The index chosen by `nearestTileCentre` carries a centre of the list that
minimises the distance. -/
theorem nearestTileCentre_spec (centres : List (ℚ × ℚ)) (q : ℚ × ℚ) (h : centres ≠ []) :
    ∃ c, centres[nearestTileCentre centres q]? = some c ∧
      ∀ j, ∀ hj : j < centres.length, sqDist2 c q ≤ sqDist2 centres[j] q := by
  unfold nearestTileCentre
  cases harg : centres.enum.argmin (fun ic => sqDist2 ic.2 q) with
  | none =>
    rw [List.argmin_eq_none] at harg
    have : centres.length = 0 := by
      have := congrArg List.length harg
      simpa using this
    exact absurd (List.length_eq_zero.mp this) h
  | some ic =>
    have hmem : ic ∈ centres.enum := List.argmin_mem (by rw [harg]; rfl)
    have hget : centres[ic.1]? = some ic.2 := by
      have := List.mk_mem_enum_iff_getElem?.mp (by
        have : (ic.1, ic.2) = ic := rfl
        rw [this]
        exact hmem)
      exact this
    refine ⟨ic.2, hget, ?_⟩
    intro j hj
    have hjm : (j, centres[j]) ∈ centres.enum := by
      rw [List.mk_mem_enum_iff_getElem?]
      exact (List.getElem?_eq_getElem hj)
    have := List.le_of_mem_argmin hjm (by rw [harg]; rfl)
    exact this

/-- Distinct points have positive squared distance. -/
theorem sqDist2_pos (a b : ℚ × ℚ) (h : a ≠ b) : 0 < sqDist2 a b := by
  unfold sqDist2
  rcases a with ⟨a1, a2⟩
  rcases b with ⟨b1, b2⟩
  by_cases h1 : a1 = b1
  · have h2 : a2 ≠ b2 := fun hc => h (by rw [Prod.ext_iff]; exact ⟨h1, hc⟩)
    have h3 : a2 - b2 ≠ 0 := sub_ne_zero.mpr h2
    have h4 : 0 < (a2 - b2) ^ 2 := lt_of_le_of_ne (sq_nonneg _) (Ne.symm (pow_ne_zero 2 h3))
    nlinarith [sq_nonneg (a1 - b1)]
  · have h3 : a1 - b1 ≠ 0 := sub_ne_zero.mpr h1
    have h4 : 0 < (a1 - b1) ^ 2 := lt_of_le_of_ne (sq_nonneg _) (Ne.symm (pow_ne_zero 2 h3))
    nlinarith [sq_nonneg (a2 - b2)]

/-- C6: a spot is kept by the deduplicator iff the tile centre nearest to its
global planar position is the centre of the tile that produced it: if the
producing tile is strictly nearest the spot is kept; if some other tile
centre is strictly nearer the spot is discarded; and a spot located exactly
at its own tile centre is always kept when the tile centres are pairwise
distinct. -/
theorem tile_dedup_nearest (tile_origin : List (ℚ × ℚ)) (tile_centre : ℚ × ℚ)
    (local_yx : Int × Int) (t : Nat) (ht : t < tile_origin.length) :
    ((∀ j, j < tile_origin.length → j ≠ t →
        sqDist2 (tileCentreOf tile_origin tile_centre t) (spotGlobal tile_origin local_yx t)
          < sqDist2 (tileCentreOf tile_origin tile_centre j) (spotGlobal tile_origin local_yx t)) →
      spot_not_duplicate tile_origin tile_centre local_yx t = true)
  ∧ ((∃ j, j < tile_origin.length ∧
        sqDist2 (tileCentreOf tile_origin tile_centre j) (spotGlobal tile_origin local_yx t)
          < sqDist2 (tileCentreOf tile_origin tile_centre t) (spotGlobal tile_origin local_yx t)) →
      spot_not_duplicate tile_origin tile_centre local_yx t = false)
  ∧ ((spotGlobal tile_origin local_yx t = tileCentreOf tile_origin tile_centre t) →
      (∀ i, i < tile_origin.length → ∀ j, j < tile_origin.length → i ≠ j →
        tileCentreOf tile_origin tile_centre i ≠ tileCentreOf tile_origin tile_centre j) →
      spot_not_duplicate tile_origin tile_centre local_yx t = true) := by
  set centres := tile_origin.map (fun o => (o.1 + tile_centre.1, o.2 + tile_centre.2)) with hcen
  set g := spotGlobal tile_origin local_yx t with hg
  have hlen : centres.length = tile_origin.length := by rw [hcen, List.length_map]
  have hne : centres ≠ [] := by
    intro hc
    rw [hc] at hlen
    simp at hlen
    omega
  have hcent : ∀ j, ∀ hj : j < tile_origin.length,
      centres[j] = tileCentreOf tile_origin tile_centre j := by
    intro j hj
    simp only [hcen, List.getElem_map]
    unfold tileCentreOf
    rw [List.getD_eq_getElem tile_origin (0, 0) hj]
  obtain ⟨c, hc, hmin⟩ := nearestTileCentre_spec centres g hne
  set r := nearestTileCentre centres g with hr
  have hrlt : r < centres.length := by
    by_contra hcon
    rw [List.getElem?_eq_none (by omega)] at hc
    exact Option.noConfusion hc
  have hcval : c = centres[r] := by
    rw [List.getElem?_eq_getElem hrlt] at hc
    exact (Option.some.injEq _ _ ▸ hc).symm
  have key : (∀ j, j < tile_origin.length → j ≠ t →
      sqDist2 (tileCentreOf tile_origin tile_centre t) g
        < sqDist2 (tileCentreOf tile_origin tile_centre j) g) →
      spot_not_duplicate tile_origin tile_centre local_yx t = true := by
    intro hstrict
    have : r = t := by
      by_contra hrt
      have h1 := hstrict r (by omega) hrt
      have h2 := hmin t (by omega)
      rw [hcval, hcent r (by omega)] at h2
      rw [hcent t ht] at h2
      exact absurd (lt_of_le_of_lt h2 h1) (lt_irrefl _)
    unfold spot_not_duplicate
    show (nearestTileCentre centres g == t) = true
    rw [← hr, this]
    exact beq_self_eq_true t
  refine ⟨key, ?_, ?_⟩
  · rintro ⟨j, hj, hlt⟩
    have : r ≠ t := by
      intro hrt
      have h2 := hmin j (by omega)
      rw [hcval, hcent r (by omega), hrt] at h2
      rw [hcent j hj] at h2
      exact absurd (lt_of_le_of_lt h2 hlt) (lt_irrefl _)
    unfold spot_not_duplicate
    show (nearestTileCentre centres g == t) = false
    rw [← hr]
    exact beq_eq_false_iff_ne.mpr this
  · intro hat hdist
    apply key
    intro j hj hjt
    rw [hat]
    rw [show sqDist2 (tileCentreOf tile_origin tile_centre t)
        (tileCentreOf tile_origin tile_centre t) = 0 by unfold sqDist2; ring]
    exact sqDist2_pos _ _ (fun hc => (hdist j hj t ht hjt) (hc.symm ▸ rfl))

/-- Witness for `tile_dedup_nearest` with two tiles at origins (0,0) and
(10,0) and centre offset (1,1): a spot of tile 1 near its own centre is kept,
a spot of tile 0 lying next to the centre of tile 1 is discarded, and a spot
of tile 0 exactly at its own centre is kept. -/
theorem tile_dedup_nearest_witness :
    spot_not_duplicate [((0 : ℚ), (0 : ℚ)), ((10 : ℚ), (0 : ℚ))] ((1 : ℚ), (1 : ℚ))
      ((9 : Int), 9) 1 = true
  ∧ spot_not_duplicate [((0 : ℚ), (0 : ℚ)), ((10 : ℚ), (0 : ℚ))] ((1 : ℚ), (1 : ℚ))
      ((10 : Int), 1) 0 = false
  ∧ spot_not_duplicate [((0 : ℚ), (0 : ℚ)), ((10 : ℚ), (0 : ℚ))] ((1 : ℚ), (1 : ℚ))
      ((1 : Int), 1) 0 = true := by
  refine ⟨?_, ?_, ?_⟩
  · apply (tile_dedup_nearest _ _ _ 1 (by norm_num)).1
    intro j hj hjt
    simp only [List.length_cons, List.length_nil] at hj
    have hj0 : j = 0 := by omega
    subst hj0
    norm_num [tileCentreOf, spotGlobal, sqDist2, List.getD]
  · apply (tile_dedup_nearest _ _ _ 0 (by norm_num)).2.1
    refine ⟨1, by norm_num, ?_⟩
    norm_num [tileCentreOf, spotGlobal, sqDist2, List.getD]
  · apply (tile_dedup_nearest _ _ _ 0 (by norm_num)).2.2
    · norm_num [tileCentreOf, spotGlobal, List.getD]
    · intro i hi j hj hij
      simp only [List.length_cons, List.length_nil] at hi hj
      interval_cases i <;> interval_cases j <;>
        simp_all [tileCentreOf, List.getD, Prod.ext_iff]

/-! ### SpotDetector: `get_spots` (iss/omp/spots.py lines 261-374) -/

/-- Number of in-range cells of a mask holding a given value. -/
def gridCount (f : Grid3 Int) (v : Int) : Nat :=
  List.sum ((List.range f.dy).map (fun y => List.sum ((List.range f.dx).map (fun x =>
    ((List.range f.dz).filter (fun z =>
      f.val (y : Int) (x : Int) (z : Int) == v)).length))))

/-- Sum of the in-range cells of a mask (`np.sum`). -/
def gridSum (f : Grid3 Int) : Int :=
  List.sum ((List.range f.dy).map (fun y => List.sum ((List.range f.dx).map (fun x =>
    List.sum ((List.range f.dz).map (fun z => f.val (y : Int) (x : Int) (z : Int)))))))

/-- Positive mask of a ternary template, `(spot_shape > 0).astype(int)`
(iss/omp/spots.py line 322). -/
def posPart (sh : Grid3 Int) : Grid3 Int :=
  { dy := sh.dy, dx := sh.dx, dz := sh.dz
    val := fun y x z => if 0 < sh.val y x z then 1 else 0 }

/-- Negative mask of a ternary template, `(spot_shape < 0).astype(int)`
(iss/omp/spots.py line 326). -/
def negPart (sh : Grid3 Int) : Grid3 Int :=
  { dy := sh.dy, dx := sh.dx, dz := sh.dz
    val := fun y x z => if sh.val y x z < 0 then 1 else 0 }

/-- One row of the `spot_info` accumulator of `get_spots`: yxz shifted back
to the tile frame, gene id, and the positive / negative neighbour counts
(these stay 0 on the no-template path, matching the zero-initialised columns
of the source array). -/
structure SpotInfo where
  y : Int
  x : Int
  z : Int
  gene : Nat
  nPos : Int
  nNeg : Int
deriving DecidableEq

/-- One iteration of the per-gene loop of `get_spots` (iss/omp/spots.py
lines 342-367): build the cropped coefficient image for the gene, obtain the
candidate spots from the external `detect_spots` collaborator (abstracted as
the `detect` parameter, which absorbs `coef_thresh`, `radius_xy` and
`radius_z`; for a rank-2 image its two-column output is embedded with
`z = 0`), and append the per-gene rows: all candidates on the no-template
path, or exactly the candidates whose positive-neighbour count strictly
exceeds the threshold when filters are present, with both counts attached.
Adding the coordinate shift to the z column reproduces the source also in
the rank-2 case, where the unset z column is 0 before the shift is added. -/
def get_spots_gene_step (detect : CoefImage → List (Int × Int × Int))
    (pixel_yxz : List (Int × Int × Int)) (pixel_coefs : List (List ℚ))
    (filters : Option (Grid3 Int × Grid3 Int)) (pos_neighbour_thresh : Int)
    (acc : List SpotInfo) (g : Nat) : Except String (List SpotInfo) := do
  let ci ← cropped_coef_image pixel_yxz (geneColumn pixel_coefs g)
  let spots := detect ci
  if spots.length = 0 then
    pure acc
  else
    match filters with
    | none =>
      pure (acc ++ spots.map (fun s => SpotInfo.mk (s.1 + ci.shift.1) (s.2.1 + ci.shift.2.1)
        (s.2.2 + ci.shift.2.2) g 0 0))
    | some (pf, nf) => do
      let counts ← count_spot_neighbours ci.img ci.twoD spots pf (some nf)
      match counts with
      | (nPos, some nNeg) =>
        let trip := spots.zip (nPos.zip nNeg)
        let kept := trip.filter (fun p => pos_neighbour_thresh < p.2.1)
        pure (acc ++ kept.map (fun p => SpotInfo.mk (p.1.1 + ci.shift.1)
          (p.1.2.1 + ci.shift.2.1) (p.1.2.2 + ci.shift.2.2) g p.2.1 p.2.2))
      | (_, none) =>
        -- not reachable: a negative filter is always supplied on this path
        pure acc

/-- Source `get_spots` (iss/omp/spots.py lines 261-374), on the
`spot_yxzg = None` path the pipeline uses: validate the template (at least
one `1` cell, at least one `-1` cell, `0 ≤ pos_neighbour_thresh <
np.sum(pos_filter)`), then run the per-gene loop and concatenate its rows. -/
def get_spots (detect : CoefImage → List (Int × Int × Int))
    (pixel_yxz : List (Int × Int × Int)) (pixel_coefs : List (List ℚ)) (n_genes : Nat)
    (spot_shape : Option (Grid3 Int)) (pos_neighbour_thresh : Int) :
    Except String (List SpotInfo) := do
  let filters ← (match spot_shape with
    | none => Except.ok none
    | some sh =>
      if gridCount sh 1 = 0 then
        Except.error ("ValueError: spot_shape contains no pixels with a value of 1 which " ++
          "indicates the neighbourhood about a spot where we expect a positive coefficient.")
      else if gridCount sh (-1) = 0 then
        Except.error ("ValueError: spot_shape contains no pixels with a value of -1 which " ++
          "indicates the neighbourhood about a spot where we expect a negative coefficient.")
      else if pos_neighbour_thresh < 0 ∨ gridSum (posPart sh) ≤ pos_neighbour_thresh then
        Except.error "OutOfBoundsError: pos_neighbour_thresh"
      else
        Except.ok (some (posPart sh, negPart sh)))
  (List.range n_genes).foldlM
    (get_spots_gene_step detect pixel_yxz pixel_coefs filters pos_neighbour_thresh) []

/-- Template with no positive cell: `get_spots` raises the first check. -/
theorem get_spots_error_no_pos (detect : CoefImage → List (Int × Int × Int))
    (pixel_yxz : List (Int × Int × Int)) (pixel_coefs : List (List ℚ)) (n_genes : Nat)
    (sh : Grid3 Int) (thresh : Int) (h1 : gridCount sh 1 = 0) :
    get_spots detect pixel_yxz pixel_coefs n_genes (some sh) thresh
      = Except.error ("ValueError: spot_shape contains no pixels with a value of 1 which " ++
          "indicates the neighbourhood about a spot where we expect a positive coefficient.") := by
  unfold get_spots
  simp [h1]
  rfl

/-- Template with no negative cell: `get_spots` raises the second check. -/
theorem get_spots_error_no_neg (detect : CoefImage → List (Int × Int × Int))
    (pixel_yxz : List (Int × Int × Int)) (pixel_coefs : List (List ℚ)) (n_genes : Nat)
    (sh : Grid3 Int) (thresh : Int) (h1 : gridCount sh 1 ≠ 0) (h2 : gridCount sh (-1) = 0) :
    get_spots detect pixel_yxz pixel_coefs n_genes (some sh) thresh
      = Except.error ("ValueError: spot_shape contains no pixels with a value of -1 which " ++
          "indicates the neighbourhood about a spot where we expect a negative coefficient.") := by
  unfold get_spots
  simp [h1, h2]
  rfl

/-- Threshold outside `[0, sum of the positive mask)`: `get_spots` raises the
out-of-bounds check. -/
theorem get_spots_error_thresh (detect : CoefImage → List (Int × Int × Int))
    (pixel_yxz : List (Int × Int × Int)) (pixel_coefs : List (List ℚ)) (n_genes : Nat)
    (sh : Grid3 Int) (thresh : Int) (h1 : gridCount sh 1 ≠ 0) (h2 : gridCount sh (-1) ≠ 0)
    (h3 : thresh < 0 ∨ gridSum (posPart sh) ≤ thresh) :
    get_spots detect pixel_yxz pixel_coefs n_genes (some sh) thresh
      = Except.error "OutOfBoundsError: pos_neighbour_thresh" := by
  unfold get_spots
  simp [h1, h2, h3]
  rfl

/-- Bind of an ok value over `Except`. -/
theorem except_bind_ok {ε α β : Type} (a : α) (f : α → Except ε β) :
    (Except.ok a >>= f) = f a := rfl

/-- Bind of an error over `Except`. -/
theorem except_bind_error {ε α β : Type} (e : ε) (f : α → Except ε β) :
    ((Except.error e : Except ε α) >>= f) = Except.error e := rfl

/-- Pure over `Except`. -/
theorem except_pure_eq {ε α : Type} (a : α) : (pure a : Except ε α) = Except.ok a := rfl

/-- Closed form of the filtered per-gene step of `get_spots`, given a
successful crop. -/
theorem get_spots_gene_step_eq_filters (detect : CoefImage → List (Int × Int × Int))
    (pixel_yxz : List (Int × Int × Int)) (pixel_coefs : List (List ℚ))
    (pf nf : Grid3 Int) (thresh : Int) (acc : List SpotInfo) (g : Nat) (ci : CoefImage)
    (hci : cropped_coef_image pixel_yxz (geneColumn pixel_coefs g) = Except.ok ci) :
    get_spots_gene_step detect pixel_yxz pixel_coefs (some (pf, nf)) thresh acc g
      = (if (detect ci).length = 0 then Except.ok acc
        else match count_spot_neighbours ci.img ci.twoD (detect ci) pf (some nf) with
          | Except.error e => Except.error e
          | Except.ok (nPos, some nNeg) =>
            Except.ok (acc ++ (((detect ci).zip (nPos.zip nNeg)).filter
              (fun p => thresh < p.2.1)).map (fun p => SpotInfo.mk (p.1.1 + ci.shift.1)
                (p.1.2.1 + ci.shift.2.1) (p.1.2.2 + ci.shift.2.2) g p.2.1 p.2.2))
          | Except.ok (_, none) => Except.ok acc) := by
  unfold get_spots_gene_step
  rw [hci, except_bind_ok]
  by_cases hsp : (detect ci).length = 0
  · rw [if_pos hsp, if_pos hsp]
    rfl
  · rw [if_neg hsp, if_neg hsp]
    cases hc : count_spot_neighbours ci.img ci.twoD (detect ci) pf (some nf) with
    | error e =>
      show (count_spot_neighbours ci.img ci.twoD (detect ci) pf (some nf) >>= _) = _
      rw [hc, except_bind_error]
    | ok counts =>
      show (count_spot_neighbours ci.img ci.twoD (detect ci) pf (some nf) >>= _) = _
      rw [hc, except_bind_ok]
      obtain ⟨nPos, nNegO⟩ := counts
      cases nNegO with
      | none => rfl
      | some nNeg => rfl

/-- An `Except` fold whose steps preserve a predicate on all produced
elements. -/
theorem foldlM_except_forall {α β : Type} (f : List β → α → Except String (List β))
    (P : β → Prop) (l : List α) (init : List β) (res : List β)
    (hstep : ∀ acc a r2, (∀ b ∈ acc, P b) → f acc a = Except.ok r2 → ∀ b ∈ r2, P b)
    (hinit : ∀ b ∈ init, P b) (h : l.foldlM f init = Except.ok res) :
    ∀ b ∈ res, P b := by
  induction l generalizing init with
  | nil =>
    rw [List.foldlM_nil, except_pure_eq, Except.ok.injEq] at h
    exact h ▸ hinit
  | cons a t ih =>
    rw [List.foldlM_cons] at h
    cases hf : f init a with
    | error e =>
      rw [hf, except_bind_error] at h
      exact Except.noConfusion h
    | ok acc2 =>
      rw [hf, except_bind_ok] at h
      exact ih acc2 (hstep init a acc2 hinit hf) h

/-- An `Except` fold whose steps never drop elements keeps the initial
elements. -/
theorem foldlM_except_subset {α β : Type} (f : List β → α → Except String (List β))
    (l : List α) (init res : List β)
    (hmono : ∀ acc a r2, f acc a = Except.ok r2 → ∀ b ∈ acc, b ∈ r2)
    (h : l.foldlM f init = Except.ok res) : ∀ b ∈ init, b ∈ res := by
  induction l generalizing init with
  | nil =>
    rw [List.foldlM_nil, except_pure_eq, Except.ok.injEq] at h
    exact fun b hb => h ▸ hb
  | cons a t ih =>
    rw [List.foldlM_cons] at h
    cases hf : f init a with
    | error e =>
      rw [hf, except_bind_error] at h
      exact Except.noConfusion h
    | ok acc2 =>
      rw [hf, except_bind_ok] at h
      exact fun b hb => ih acc2 h b (hmono init a acc2 hf b hb)

/-- An element produced by the step of some list member survives to the end
of a never-dropping `Except` fold. -/
theorem foldlM_except_mem {α β : Type} (f : List β → α → Except String (List β))
    (l : List α) (init res : List β)
    (hmono : ∀ acc a r2, f acc a = Except.ok r2 → ∀ b ∈ acc, b ∈ r2)
    (h : l.foldlM f init = Except.ok res) (a : α) (ha : a ∈ l) (b : β)
    (hb : ∀ acc r2, f acc a = Except.ok r2 → b ∈ r2) : b ∈ res := by
  induction l generalizing init with
  | nil => exact absurd ha (List.not_mem_nil a)
  | cons c t ih =>
    rw [List.foldlM_cons] at h
    cases hf : f init c with
    | error e =>
      rw [hf, except_bind_error] at h
      exact Except.noConfusion h
    | ok acc2 =>
      rw [hf, except_bind_ok] at h
      rcases List.mem_cons.mp ha with heq | ha2
      · subst heq
        exact foldlM_except_subset f t acc2 res hmono h b (hb init acc2 hf)
      · exact ih acc2 h ha2

/-- When `count_spot_neighbours` succeeds with a negative filter, both count
lists are the sampled correlation images over the spot list. -/
theorem count_spot_neighbours_ok_eq (image : Grid3 ℚ) (img2d : Bool)
    (spots : List (Int × Int × Int)) (pf nf : Grid3 Int) (a : List Int) (bo : Option (List Int))
    (h : count_spot_neighbours image img2d spots pf (some nf) = Except.ok (a, bo)) :
    a = spots.map (fun s => round ((imfilter3 (posIndicator image)
        (gridToQ (if img2d then midZPlane pf else pf))).val s.1 s.2.1 s.2.2))
  ∧ bo = some (spots.map (fun s => round ((imfilter3 (negIndicator image)
        (gridToQ (if img2d then midZPlane nf else nf))).val s.1 s.2.1 s.2.2))) := by
  unfold count_spot_neighbours at h
  by_cases h1 : (some nf).any (fun g => !filterIs01 g)
  · rw [if_pos h1] at h
    exact Except.noConfusion h
  · rw [if_neg h1] at h
    by_cases h2 : !filterIs01 pf
    · rw [if_pos h2] at h
      exact Except.noConfusion h
    · rw [if_neg h2] at h
      by_cases h3 : spots.any (fun s => !decide (image.inBounds s.1 s.2.1 s.2.2))
      · rw [if_pos h3] at h
        exact Except.noConfusion h
      · rw [if_neg h3] at h
        rw [Except.ok.injEq] at h
        rw [Prod.ext_iff] at h
        exact ⟨h.1.symm, h.2.symm⟩

/-- With a valid template and threshold, `get_spots` runs the per-gene fold. -/
theorem get_spots_ok_fold (detect : CoefImage → List (Int × Int × Int))
    (pixel_yxz : List (Int × Int × Int)) (pixel_coefs : List (List ℚ)) (n_genes : Nat)
    (sh : Grid3 Int) (thresh : Int)
    (h1 : gridCount sh 1 ≠ 0) (h2 : gridCount sh (-1) ≠ 0)
    (h3 : ¬(thresh < 0 ∨ gridSum (posPart sh) ≤ thresh)) :
    get_spots detect pixel_yxz pixel_coefs n_genes (some sh) thresh
      = (List.range n_genes).foldlM
          (get_spots_gene_step detect pixel_yxz pixel_coefs
            (some (posPart sh, negPart sh)) thresh) [] := by
  unfold get_spots
  simp only [if_neg h1, if_neg h2, if_neg h3, except_bind_ok]

/-- Elements added by a filtered gene step beyond the accumulator have a
positive-neighbour count strictly above the threshold, and the accumulator is
kept. -/
theorem get_spots_gene_step_parts (detect : CoefImage → List (Int × Int × Int))
    (pixel_yxz : List (Int × Int × Int)) (pixel_coefs : List (List ℚ))
    (pf nf : Grid3 Int) (thresh : Int) (acc : List SpotInfo) (g : Nat) (r2 : List SpotInfo)
    (h : get_spots_gene_step detect pixel_yxz pixel_coefs (some (pf, nf)) thresh acc g
      = Except.ok r2) :
    ∀ sp ∈ r2, sp ∈ acc ∨ thresh < sp.nPos := by
  cases hci : cropped_coef_image pixel_yxz (geneColumn pixel_coefs g) with
  | error e =>
    unfold get_spots_gene_step at h
    rw [hci, except_bind_error] at h
    exact Except.noConfusion h
  | ok ci =>
    rw [get_spots_gene_step_eq_filters detect pixel_yxz pixel_coefs pf nf thresh acc g ci hci]
      at h
    by_cases hsp : (detect ci).length = 0
    · rw [if_pos hsp, Except.ok.injEq] at h
      exact fun sp hs => Or.inl (h ▸ hs)
    · rw [if_neg hsp] at h
      cases hc : count_spot_neighbours ci.img ci.twoD (detect ci) pf (some nf) with
      | error e =>
        rw [hc] at h
        exact Except.noConfusion h
      | ok counts =>
        obtain ⟨nPos, nNegO⟩ := counts
        cases nNegO with
        | none =>
          rw [hc, Except.ok.injEq] at h
          exact fun sp hs => Or.inl (h ▸ hs)
        | some nNeg =>
          rw [hc, Except.ok.injEq] at h
          subst h
          intro sp hs
          rcases List.mem_append.mp hs with hs1 | hs1
          · exact Or.inl hs1
          · obtain ⟨p, hp, hpe⟩ := List.mem_map.mp hs1
            have hpred := (List.mem_filter.mp hp).2
            rw [decide_eq_true_eq] at hpred
            refine Or.inr ?_
            rw [← hpe]
            exact hpred

/-- The accumulator survives a filtered gene step. -/
theorem get_spots_gene_step_mono (detect : CoefImage → List (Int × Int × Int))
    (pixel_yxz : List (Int × Int × Int)) (pixel_coefs : List (List ℚ))
    (pf nf : Grid3 Int) (thresh : Int) (acc : List SpotInfo) (g : Nat) (r2 : List SpotInfo)
    (h : get_spots_gene_step detect pixel_yxz pixel_coefs (some (pf, nf)) thresh acc g
      = Except.ok r2) :
    ∀ sp ∈ acc, sp ∈ r2 := by
  cases hci : cropped_coef_image pixel_yxz (geneColumn pixel_coefs g) with
  | error e =>
    unfold get_spots_gene_step at h
    rw [hci, except_bind_error] at h
    exact Except.noConfusion h
  | ok ci =>
    rw [get_spots_gene_step_eq_filters detect pixel_yxz pixel_coefs pf nf thresh acc g ci hci]
      at h
    by_cases hsp : (detect ci).length = 0
    · rw [if_pos hsp, Except.ok.injEq] at h
      exact fun sp hs => h ▸ hs
    · rw [if_neg hsp] at h
      cases hc : count_spot_neighbours ci.img ci.twoD (detect ci) pf (some nf) with
      | error e =>
        rw [hc] at h
        exact Except.noConfusion h
      | ok counts =>
        obtain ⟨nPos, nNegO⟩ := counts
        cases nNegO with
        | none =>
          rw [hc, Except.ok.injEq] at h
          exact fun sp hs => h ▸ hs
        | some nNeg =>
          rw [hc, Except.ok.injEq] at h
          subst h
          exact fun sp hs => List.mem_append.mpr (Or.inl hs)

/-- A candidate whose positive-neighbour count strictly exceeds the
threshold appears in the rows produced by its gene step, whatever the
accumulator. -/
theorem get_spots_gene_step_complete (detect : CoefImage → List (Int × Int × Int))
    (pixel_yxz : List (Int × Int × Int)) (pixel_coefs : List (List ℚ))
    (pf nf : Grid3 Int) (thresh : Int) (g : Nat) (ci : CoefImage)
    (nPos nNeg : List Int) (i : Nat)
    (hci : cropped_coef_image pixel_yxz (geneColumn pixel_coefs g) = Except.ok ci)
    (hc : count_spot_neighbours ci.img ci.twoD (detect ci) pf (some nf)
      = Except.ok (nPos, some nNeg))
    (hi : i < (detect ci).length) (hth : thresh < nPos.getD i 0) :
    ∀ acc r2, get_spots_gene_step detect pixel_yxz pixel_coefs (some (pf, nf)) thresh acc g
        = Except.ok r2 →
      SpotInfo.mk (((detect ci).getD i (0, 0, 0)).1 + ci.shift.1)
        (((detect ci).getD i (0, 0, 0)).2.1 + ci.shift.2.1)
        (((detect ci).getD i (0, 0, 0)).2.2 + ci.shift.2.2) g
        (nPos.getD i 0) (nNeg.getD i 0) ∈ r2 := by
  intro acc r2 h
  obtain ⟨hpe, hne⟩ := count_spot_neighbours_ok_eq ci.img ci.twoD (detect ci) pf nf
    nPos (some nNeg) hc
  have hlp : nPos.length = (detect ci).length := by rw [hpe, List.length_map]
  have hln : nNeg.length = (detect ci).length := by
    have : nNeg = (detect ci).map (fun s => round ((imfilter3 (negIndicator ci.img)
        (gridToQ (if ci.twoD then midZPlane nf else nf))).val s.1 s.2.1 s.2.2)) := by
      injection hne
    rw [this, List.length_map]
  rw [get_spots_gene_step_eq_filters detect pixel_yxz pixel_coefs pf nf thresh acc g ci hci]
    at h
  rw [if_neg (by omega), hc, Except.ok.injEq] at h
  subst h
  have hizip : i < ((detect ci).zip (nPos.zip nNeg)).length := by
    rw [List.length_zip, List.length_zip]
    omega
  have hip : i < nPos.length := by omega
  have hin : i < nNeg.length := by omega
  have htv : ((detect ci).zip (nPos.zip nNeg))[i]
      = ((detect ci)[i], (nPos[i], nNeg[i])) := by
    rw [List.getElem_zip, List.getElem_zip]
  refine List.mem_append.mpr (Or.inr ?_)
  refine List.mem_map.mpr ⟨((detect ci).zip (nPos.zip nNeg))[i], ?_, ?_⟩
  · refine List.mem_filter.mpr ⟨List.getElem_mem hizip, ?_⟩
    rw [htv]
    simp only [decide_eq_true_eq]
    rw [List.getD_eq_getElem nPos 0 hip] at hth
    exact hth
  · rw [htv]
    rw [List.getD_eq_getElem (detect ci) (0, 0, 0) hi,
      List.getD_eq_getElem nPos 0 hip, List.getD_eq_getElem nNeg 0 hin]

/-- A tiny template with one positive and one negative cell, used by the
concrete instances below. -/
def templateExample : Grid3 Int :=
  Grid3.mk 1 2 1 (fun _ x _ => if x == 0 then 1 else -1)

/-- A 1 x 3 x 1 template with one positive and two negative cells. -/
def templateWide : Grid3 Int :=
  Grid3.mk 1 3 1 (fun _ x _ => if x == 1 then 1 else -1)

/-- C1 counterexample: with a template holding one positive and one negative
cell and `pos_neighbour_thresh` equal to the pixel count of the positive
mask, `get_spots` fails with `OutOfBounds` instead of returning an empty
spot set. -/
theorem get_spots_thresh_at_mask_size_counterexample :
    gridCount templateExample 1 ≠ 0
  ∧ gridCount templateExample (-1) ≠ 0
  ∧ gridSum (posPart templateExample) = 1
  ∧ get_spots (fun _ => [((0 : Int), 0, 0)]) [((0 : Int), 0, 0)] [[(1 : ℚ)]] 1
      (some templateExample) 1
      = Except.error "OutOfBoundsError: pos_neighbour_thresh"
  ∧ get_spots (fun _ => [((0 : Int), 0, 0)]) [((0 : Int), 0, 0)] [[(1 : ℚ)]] 1
      (some templateExample) 1 ≠ Except.ok [] := by
  have he : get_spots (fun _ => [((0 : Int), 0, 0)]) [((0 : Int), 0, 0)] [[(1 : ℚ)]] 1
      (some templateExample) 1
      = Except.error "OutOfBoundsError: pos_neighbour_thresh" := rfl
  exact ⟨by decide, by decide, by decide, he, by rw [he]; simp⟩

/-- C1 (amended): for every template with at least one positive and one
negative cell, calling `get_spots` with `pos_neighbour_thresh` equal to the
total pixel count of the positive mask fails with `OutOfBounds` (the source
requires the threshold to be strictly below that count), for any detector
and pixel data, rather than returning an empty set. -/
theorem get_spots_thresh_at_mask_size_fails (detect : CoefImage → List (Int × Int × Int))
    (pixel_yxz : List (Int × Int × Int)) (pixel_coefs : List (List ℚ)) (n_genes : Nat)
    (sh : Grid3 Int) (h1 : gridCount sh 1 ≠ 0) (h2 : gridCount sh (-1) ≠ 0) :
    get_spots detect pixel_yxz pixel_coefs n_genes (some sh) (gridSum (posPart sh))
      = Except.error "OutOfBoundsError: pos_neighbour_thresh" :=
  get_spots_error_thresh detect pixel_yxz pixel_coefs n_genes sh _ h1 h2 (Or.inr (le_refl _))

/-- Witness for `get_spots_thresh_at_mask_size_fails` at the concrete
template. -/
theorem get_spots_thresh_at_mask_size_fails_witness :
    get_spots (fun _ => []) [] [[]] 1 (some templateExample)
      (gridSum (posPart templateExample))
      = Except.error "OutOfBoundsError: pos_neighbour_thresh" :=
  get_spots_thresh_at_mask_size_fails _ _ _ _ _ (by decide) (by decide)

/-- C5 (amended): `get_spots` with a template fails with `InvalidArgument`
(`ValueError`) when the template has no 1 cell, or has a 1 cell but no -1
cell; fails with `OutOfBounds` when the threshold is negative or at least
the positive-mask pixel count (the source also rejects negative thresholds,
which the original claim omits from its preconditions); and on success
retains exactly the candidate spots whose positive-neighbour count strictly
exceeds the threshold: every returned row carries a count above the
threshold, and every candidate with a count above the threshold appears
among the returned rows of its gene, shifted back and with both counts
attached. -/
theorem get_spots_template_validation_and_filtering :
    (∀ (detect : CoefImage → List (Int × Int × Int)) pixel_yxz pixel_coefs n_genes
        (sh : Grid3 Int) thresh, gridCount sh 1 = 0 →
      get_spots detect pixel_yxz pixel_coefs n_genes (some sh) thresh
        = Except.error ("ValueError: spot_shape contains no pixels with a value of 1 which " ++
            "indicates the neighbourhood about a spot where we expect a positive coefficient."))
  ∧ (∀ (detect : CoefImage → List (Int × Int × Int)) pixel_yxz pixel_coefs n_genes
        (sh : Grid3 Int) thresh, gridCount sh 1 ≠ 0 → gridCount sh (-1) = 0 →
      get_spots detect pixel_yxz pixel_coefs n_genes (some sh) thresh
        = Except.error ("ValueError: spot_shape contains no pixels with a value of -1 which " ++
            "indicates the neighbourhood about a spot where we expect a negative coefficient."))
  ∧ (∀ (detect : CoefImage → List (Int × Int × Int)) pixel_yxz pixel_coefs n_genes
        (sh : Grid3 Int) thresh, gridCount sh 1 ≠ 0 → gridCount sh (-1) ≠ 0 →
      (thresh < 0 ∨ gridSum (posPart sh) ≤ thresh) →
      get_spots detect pixel_yxz pixel_coefs n_genes (some sh) thresh
        = Except.error "OutOfBoundsError: pos_neighbour_thresh")
  ∧ (∀ (detect : CoefImage → List (Int × Int × Int)) pixel_yxz pixel_coefs n_genes
        (sh : Grid3 Int) thresh l,
      get_spots detect pixel_yxz pixel_coefs n_genes (some sh) thresh = Except.ok l →
      (∀ sp ∈ l, thresh < sp.nPos)
      ∧ (∀ g, g < n_genes → ∀ ci,
          cropped_coef_image pixel_yxz (geneColumn pixel_coefs g) = Except.ok ci →
          ∀ nPos nNeg, count_spot_neighbours ci.img ci.twoD (detect ci) (posPart sh)
              (some (negPart sh)) = Except.ok (nPos, some nNeg) →
          ∀ i, i < (detect ci).length → thresh < nPos.getD i 0 →
          SpotInfo.mk (((detect ci).getD i (0, 0, 0)).1 + ci.shift.1)
            (((detect ci).getD i (0, 0, 0)).2.1 + ci.shift.2.1)
            (((detect ci).getD i (0, 0, 0)).2.2 + ci.shift.2.2) g
            (nPos.getD i 0) (nNeg.getD i 0) ∈ l)) := by
  refine ⟨?_, ?_, ?_, ?_⟩
  · intro detect pixel_yxz pixel_coefs n_genes sh thresh h1
    exact get_spots_error_no_pos detect pixel_yxz pixel_coefs n_genes sh thresh h1
  · intro detect pixel_yxz pixel_coefs n_genes sh thresh h1 h2
    exact get_spots_error_no_neg detect pixel_yxz pixel_coefs n_genes sh thresh h1 h2
  · intro detect pixel_yxz pixel_coefs n_genes sh thresh h1 h2 h3
    exact get_spots_error_thresh detect pixel_yxz pixel_coefs n_genes sh thresh h1 h2 h3
  · intro detect pixel_yxz pixel_coefs n_genes sh thresh l hok
    by_cases h1 : gridCount sh 1 = 0
    · rw [get_spots_error_no_pos detect pixel_yxz pixel_coefs n_genes sh thresh h1] at hok
      exact absurd hok (by simp)
    by_cases h2 : gridCount sh (-1) = 0
    · rw [get_spots_error_no_neg detect pixel_yxz pixel_coefs n_genes sh thresh h1 h2] at hok
      exact absurd hok (by simp)
    by_cases h3 : thresh < 0 ∨ gridSum (posPart sh) ≤ thresh
    · rw [get_spots_error_thresh detect pixel_yxz pixel_coefs n_genes sh thresh h1 h2 h3] at hok
      exact absurd hok (by simp)
    rw [get_spots_ok_fold detect pixel_yxz pixel_coefs n_genes sh thresh h1 h2 h3] at hok
    constructor
    · intro sp hsp
      refine foldlM_except_forall _ (fun b => thresh < b.nPos) _ [] l ?_
        (by intro b hb; exact absurd hb (List.not_mem_nil b)) hok sp hsp
      intro acc a r2 hacc hr2 b hb
      rcases get_spots_gene_step_parts detect pixel_yxz pixel_coefs (posPart sh) (negPart sh)
        thresh acc a r2 hr2 b hb with hm | hlt
      · exact hacc b hm
      · exact hlt
    · intro g hg ci hci nPos nNeg hc i hi hth
      refine foldlM_except_mem _ _ [] l ?_ hok g (List.mem_range.mpr hg) _ ?_
      · intro acc a r2 hr2
        exact get_spots_gene_step_mono detect pixel_yxz pixel_coefs (posPart sh) (negPart sh)
          thresh acc a r2 hr2
      · intro acc r2 hr2
        exact get_spots_gene_step_complete detect pixel_yxz pixel_coefs (posPart sh)
          (negPart sh) thresh g ci nPos nNeg i hci hc hi hth acc r2 hr2

/-- A template with no positive cell. -/
def templateNoPos : Grid3 Int := Grid3.mk 1 1 1 (fun _ _ _ => -1)

/-- A template with a positive cell but no negative cell. -/
def templateNoNeg : Grid3 Int := Grid3.mk 1 1 1 (fun _ _ _ => 1)

/-- C5 counterexample to the claim as stated: with a template holding one
positive and one negative cell and a threshold of -1, which is strictly
below the positive-mask pixel count, the preconditions the claim lists all
hold, yet the source fails with `OutOfBounds` because it also rejects
negative thresholds, instead of retaining the spots whose count exceeds
-1. -/
theorem get_spots_negative_thresh_counterexample :
    gridCount templateExample 1 ≠ 0
  ∧ gridCount templateExample (-1) ≠ 0
  ∧ (-1 : Int) < gridSum (posPart templateExample)
  ∧ get_spots (fun _ => [((0 : Int), 0, 0)]) [((0 : Int), 0, 0)] [[(1 : ℚ)]] 1
      (some templateExample) (-1)
      = Except.error "OutOfBoundsError: pos_neighbour_thresh"
  ∧ get_spots (fun _ => [((0 : Int), 0, 0)]) [((0 : Int), 0, 0)] [[(1 : ℚ)]] 1
      (some templateExample) (-1) ≠ Except.ok [SpotInfo.mk 0 0 0 0 1 0] := by
  have he : get_spots (fun _ => [((0 : Int), 0, 0)]) [((0 : Int), 0, 0)] [[(1 : ℚ)]] 1
      (some templateExample) (-1)
      = Except.error "OutOfBoundsError: pos_neighbour_thresh" := rfl
  exact ⟨by decide, by decide, by decide, he, by rw [he]; simp⟩

/-- Witness for `get_spots_template_validation_and_filtering`, exercising
all four parts on concrete inputs: the two `ValueError` checks, the
`OutOfBounds` check at threshold -1, and a successful run over a two-pixel
tile where the single candidate is retained with one positive neighbour. -/
theorem get_spots_template_validation_and_filtering_witness :
    (gridCount templateNoPos 1 = 0
      ∧ get_spots (fun _ => []) [] [] 0 (some templateNoPos) 0
        = Except.error ("ValueError: spot_shape contains no pixels with a value of 1 which " ++
            "indicates the neighbourhood about a spot where we expect a positive coefficient."))
  ∧ get_spots (fun _ => []) [] [] 0 (some templateNoNeg) 0
      = Except.error ("ValueError: spot_shape contains no pixels with a value of -1 which " ++
          "indicates the neighbourhood about a spot where we expect a negative coefficient.")
  ∧ get_spots (fun _ => []) [] [] 0 (some templateExample) (-1)
      = Except.error "OutOfBoundsError: pos_neighbour_thresh"
  ∧ (get_spots (fun _ => [((0 : Int), 0, 0)]) [((0 : Int), 0, 0), ((0 : Int), 0, 1)]
        [[(2 : ℚ)], [(3 : ℚ)]] 1 (some templateWide) 0
      = Except.ok [SpotInfo.mk 0 0 0 0 1 0]
    ∧ (0 : Int) < (SpotInfo.mk (0 : Int) 0 0 0 1 0).nPos) := by
  have hok : get_spots (fun _ => [((0 : Int), 0, 0)]) [((0 : Int), 0, 0), ((0 : Int), 0, 1)]
      [[(2 : ℚ)], [(3 : ℚ)]] 1 (some templateWide) 0
      = Except.ok [SpotInfo.mk 0 0 0 0 1 0] := by with_unfolding_all rfl
  refine ⟨⟨by decide, ?_⟩, ?_, ?_, hok, ?_⟩
  · exact get_spots_template_validation_and_filtering.1 _ _ _ _ _ _ (by decide)
  · exact get_spots_template_validation_and_filtering.2.1 _ _ _ _ _ _ (by decide) (by decide)
  · exact get_spots_template_validation_and_filtering.2.2.1 _ _ _ _ _ _ (by decide) (by decide)
      (Or.inl (by norm_num))
  · exact (get_spots_template_validation_and_filtering.2.2.2 _ _ _ _ _ _ _ hok).1
      (SpotInfo.mk 0 0 0 0 1 0) (List.mem_cons_self _ _)
/-! ### ShapeTemplateLearner: `spot_neighbourhood` retention
(iss/omp/spots.py lines 181-229) -/

/-- Sign image `np.sign(coef_image).astype(int)` of a rational grid
(iss/omp/spots.py line 214), kept rational for the later filtering. -/
def signGrid (g : Grid3 ℚ) : Grid3 ℚ :=
  { dy := g.dy, dx := g.dx, dz := g.dz
    val := fun y x z =>
      if 0 < g.val y x z then 1 else if g.val y x z < 0 then -1 else 0 }

/-- Gene membership mask `use = spot_gene_no == g` (iss/omp/spots.py line
210). -/
def geneMask (spot_gene_no : List Nat) (g : Nat) : List Bool :=
  spot_gene_no.map (fun gn => gn == g)

/-- Boolean-mask selection, numpy `xs[mask]`. -/
def maskSelect {α : Type} (xs : List α) (mask : List Bool) : List α :=
  ((xs.zip mask).filter (fun p => p.2)).map (fun p => p.1)

/-- Componentwise subtraction of the coordinate shift,
`spot_yxz[use] - coord_shift` (iss/omp/spots.py line 215). -/
def shiftSpots (spots : List (Int × Int × Int)) (sh : Int × Int × Int) :
    List (Int × Int × Int) :=
  spots.map (fun s => (s.1 - sh.1, s.2.1 - sh.2.1, s.2.2 - sh.2.2))

/-- Masked writeback `use[np.where(use)[0][np.invert(g_use)]] = False`
(iss/omp/spots.py line 220): the positions of `use` holding `true` are
re-flagged by the entries of `g_use` taken in order, the positions holding
`false` stay `false`. -/
def updateUse : List Bool → List Bool → List Bool
  | [], _ => []
  | u :: us, gs =>
    if u then gs.headD false :: updateUse us gs.tail
    else false :: updateUse us gs

/-- Masked assignment `spots_used[use] = True` (iss/omp/spots.py line 226):
elementwise disjunction with the mask. -/
def orMask (a b : List Bool) : List Bool :=
  List.zipWith (fun s u => s || u) a b

/-- Exact value of `np.ceil(np.sqrt(t))` for a natural number `t`. -/
def ceilSqrtNat (t : Nat) : Nat :=
  if Nat.sqrt t * Nat.sqrt t == t then Nat.sqrt t else Nat.sqrt t + 1

/-- Expected-positive structuring element of `spot_neighbourhood`
(iss/omp/spots.py lines 184-196): a square of ones whose side is
`ceil(sqrt(pos_neighbour_thresh))` forced odd by adding one when even; the z
extent is 1 when the stack has at most two z planes and 3 otherwise, the
plane of ones sitting at `floor(z_extent / 2)` with one extra central tap on
each outer plane when the z extent is 3. -/
def spotNeighbourhoodPosFilter (pos_neighbour_thresh n_z : Nat) : Grid3 Int :=
  let s0 := ceilSqrtNat pos_neighbour_thresh
  let syx := if s0 % 2 == 0 then s0 + 1 else s0
  let sz := if n_z ≤ 2 then 1 else 3
  { dy := syx, dx := syx, dz := sz
    val := fun y x z =>
      if z == ((sz / 2 : Nat) : Int) then 1
      else if sz == 3 && y == ((syx / 2 : Nat) : Int) && x == ((syx / 2 : Nat) : Int)
          && (z == 0 || z == 2) then 1
      else 0 }

/-- One iteration of the per-gene retention loop of `spot_neighbourhood`
(iss/omp/spots.py lines 209-226): when gene `g` has spots, build the cropped
coefficient image of its column, take its sign, shift the gene's spots by
the coordinate shift, count their positive neighbours under `pos_filter`,
keep exactly the spots whose count equals `pos_filter.sum()`
(`g_use = n_pos_neighb == pos_filter.sum()`), and when any survive mark them
in the `spots_used` accumulator. -/
def spot_neighbourhood_gene_step (pixel_yxz : List (Int × Int × Int))
    (pixel_coefs : List (List ℚ)) (spot_yxz : List (Int × Int × Int))
    (spot_gene_no : List Nat) (pos_filter : Grid3 Int)
    (spots_used : List Bool) (g : Nat) : Except String (List Bool) :=
  if (geneMask spot_gene_no g).any id then do
    let ci ← cropped_coef_image pixel_yxz (geneColumn pixel_coefs g)
    let counts ← count_spot_neighbours (signGrid ci.img) ci.twoD
        (shiftSpots (maskSelect spot_yxz (geneMask spot_gene_no g)) ci.shift)
        pos_filter none
    if (updateUse (geneMask spot_gene_no g)
        (counts.1.map (fun n => n == gridSum pos_filter))).any id then
      pure (orMask spots_used (updateUse (geneMask spot_gene_no g)
        (counts.1.map (fun n => n == gridSum pos_filter))))
    else
      pure spots_used
  else
    pure spots_used

/-- Full retention loop of `spot_neighbourhood` (iss/omp/spots.py lines
204-229): fold the per-gene step over all genes starting from an all-false
`spots_used`, raising when no spot at all was retained. -/
def spot_neighbourhood_spots_used (pixel_yxz : List (Int × Int × Int))
    (pixel_coefs : List (List ℚ)) (spot_yxz : List (Int × Int × Int))
    (spot_gene_no : List Nat) (pos_filter : Grid3 Int) (n_genes : Nat) :
    Except String (List Bool) := do
  let used ← (List.range n_genes).foldlM
    (spot_neighbourhood_gene_step pixel_yxz pixel_coefs spot_yxz spot_gene_no pos_filter)
    (spot_gene_no.map (fun _ => false))
  if used.any id then pure used
  else Except.error "ValueError: No spots found to make average spot image from."

/-- Length preservation of the masked writeback. -/
theorem updateUse_length (use g_use : List Bool) :
    (updateUse use g_use).length = use.length := by
  induction use generalizing g_use with
  | nil => rfl
  | cons u us ih =>
    simp only [updateUse]
    cases u
    · simp [ih]
    · simp [ih]

/-- A default head through `getD`. -/
theorem headD_eq_getD_bool (l : List Bool) : l.headD false = l.getD 0 false := by
  cases l with
  | nil => rfl
  | cons a t => rfl

/-- A tail lookup through `getD`. -/
theorem getD_tail_bool (l : List Bool) (n : Nat) :
    l.tail.getD n false = l.getD (n + 1) false := by
  cases l with
  | nil => rfl
  | cons a t => rfl

/-- Entry `j` of the masked writeback: the original flag conjoined with the
`g_use` entry at the rank of `j` among the `true` positions. -/
theorem updateUse_getD (use g_use : List Bool) (j : Nat) :
    (updateUse use g_use).getD j false
      = (use.getD j false && g_use.getD ((use.take j).filter id).length false) := by
  induction use generalizing g_use j with
  | nil => simp [updateUse]
  | cons u us ih =>
    simp only [updateUse]
    cases u
    · cases j with
      | zero => simp
      | succ j =>
        simp only [Bool.false_eq_true, if_false, List.getD_cons_succ,
          List.take_succ_cons, List.filter_cons]
        rw [ih]
        rfl
    · cases j with
      | zero =>
        simp only [if_true, List.getD_cons_zero, Bool.true_and]
        exact headD_eq_getD_bool g_use
      | succ j =>
        simp only [if_true, List.getD_cons_succ, List.take_succ_cons, List.filter_cons]
        rw [ih, getD_tail_bool]
        rfl

/-- Selection on a cons with a `true` flag. -/
theorem maskSelect_cons_true {α : Type} (x : α) (xs : List α) (us : List Bool) :
    maskSelect (x :: xs) (true :: us) = x :: maskSelect xs us := by
  simp [maskSelect]

/-- Selection on a cons with a `false` flag. -/
theorem maskSelect_cons_false {α : Type} (x : α) (xs : List α) (us : List Bool) :
    maskSelect (x :: xs) (false :: us) = maskSelect xs us := by
  simp [maskSelect]

/-- Rank correspondence of boolean-mask selection: a position flagged `true`
appears in the selection at the index counting the earlier `true` flags, and
that index is inside the selection. -/
theorem maskSelect_rank_spec {α : Type} (d : α) (xs : List α) (use : List Bool) (j : Nat)
    (hlen : xs.length = use.length) (hu : use.getD j false = true) :
    ((use.take j).filter id).length < (maskSelect xs use).length
    ∧ (maskSelect xs use).getD ((use.take j).filter id).length d = xs.getD j d := by
  induction xs generalizing use j with
  | nil =>
    cases use with
    | nil => simp [List.getD] at hu
    | cons u us => simp at hlen
  | cons x xs ih =>
    cases use with
    | nil => simp at hlen
    | cons u us =>
      have hlen2 : xs.length = us.length := by simpa using hlen
      cases j with
      | zero =>
        have hu0 : u = true := by simpa using hu
        subst hu0
        rw [maskSelect_cons_true]
        simp
      | succ j =>
        have hu2 : us.getD j false = true := by simpa using hu
        cases u
        · rw [maskSelect_cons_false]
          simp only [List.take_succ_cons, List.filter_cons, id, Bool.false_eq_true,
            if_false, List.getD_cons_succ]
          exact ih us j hlen2 hu2
        · rw [maskSelect_cons_true]
          simp only [List.take_succ_cons, List.filter_cons, id, if_true,
            List.length_cons, List.getD_cons_succ]
          obtain ⟨h1, h2⟩ := ih us j hlen2 hu2
          exact ⟨by simpa using Nat.succ_lt_succ h1, h2⟩

/-- Disjunction with an all-false mask of the same length changes nothing. -/
theorem orMask_false (a b : List Bool) (hlen : a.length = b.length)
    (hb : ∀ x ∈ b, x = false) : orMask a b = a := by
  induction a generalizing b with
  | nil => rfl
  | cons x xs ih =>
    cases b with
    | nil => simp at hlen
    | cons y ys =>
      have hy : y = false := hb y (List.mem_cons.mpr (Or.inl rfl))
      subst hy
      show (x || false) :: orMask xs ys = x :: xs
      rw [Bool.or_false]
      rw [ih ys (by simpa using hlen) (fun v hv => hb v (List.mem_cons.mpr (Or.inr hv)))]

/-- Entrywise view of the masked assignment for equal lengths. -/
theorem orMask_getD (a b : List Bool) (hlen : a.length = b.length) (j : Nat) :
    (orMask a b).getD j false = (a.getD j false || b.getD j false) := by
  induction a generalizing b j with
  | nil =>
    cases b with
    | nil => simp [orMask]
    | cons y ys => simp at hlen
  | cons x xs ih =>
    cases b with
    | nil => simp at hlen
    | cons y ys =>
      cases j with
      | zero => rfl
      | succ j =>
        show (orMask xs ys).getD j false = _
        rw [ih ys (by simpa using hlen) j]
        rfl

/-- When `count_spot_neighbours` succeeds without a negative filter, the
count list is the sampled positive correlation image over the spot list and
the second component is `none`. -/
theorem count_spot_neighbours_ok_none_eq (image : Grid3 ℚ) (img2d : Bool)
    (spots : List (Int × Int × Int)) (pf : Grid3 Int) (a : List Int)
    (bo : Option (List Int))
    (h : count_spot_neighbours image img2d spots pf none = Except.ok (a, bo)) :
    a = spots.map (fun s => round ((imfilter3 (posIndicator image)
        (gridToQ (if img2d then midZPlane pf else pf))).val s.1 s.2.1 s.2.2))
  ∧ bo = none := by
  unfold count_spot_neighbours at h
  rw [if_neg (by simp)] at h
  by_cases h2 : !filterIs01 pf
  · rw [if_pos h2] at h
    exact Except.noConfusion h
  · rw [if_neg h2] at h
    by_cases h3 : spots.any (fun s => !decide (image.inBounds s.1 s.2.1 s.2.2))
    · rw [if_pos h3] at h
      exact Except.noConfusion h
    · rw [if_neg h3] at h
      rw [Except.ok.injEq] at h
      rw [Prod.ext_iff] at h
      exact ⟨h.1.symm, h.2.symm⟩

/-- C4: in the per-gene retention step of `spot_neighbourhood`, a spot of
gene `g` is newly marked as used only if its positive-neighbour count under
`pos_filter` exactly equals `pos_filter.sum()`, and a gene-`g` spot whose
count is strictly below that sum leaves its `spots_used` flag unchanged, so
it is excluded from the collected patches.  The step equals the masked
or-assignment of the per-spot flags `count == pos_filter.sum()` written back
through the gene mask. -/
theorem spot_neighbourhood_retention (pixel_yxz : List (Int × Int × Int))
    (pixel_coefs : List (List ℚ)) (spot_yxz : List (Int × Int × Int))
    (spot_gene_no : List Nat) (pos_filter : Grid3 Int)
    (spots_used out : List Bool) (g : Nat)
    (hlen : spots_used.length = spot_gene_no.length)
    (hslen : spot_yxz.length = spot_gene_no.length)
    (hany : (geneMask spot_gene_no g).any id = true)
    (hstep : spot_neighbourhood_gene_step pixel_yxz pixel_coefs spot_yxz spot_gene_no
        pos_filter spots_used g = Except.ok out) :
    ∃ (ci : CoefImage) (counts : List Int),
      cropped_coef_image pixel_yxz (geneColumn pixel_coefs g) = Except.ok ci
      ∧ count_spot_neighbours (signGrid ci.img) ci.twoD
          (shiftSpots (maskSelect spot_yxz (geneMask spot_gene_no g)) ci.shift)
          pos_filter none = Except.ok (counts, none)
      ∧ out = orMask spots_used (updateUse (geneMask spot_gene_no g)
          (counts.map (fun n => n == gridSum pos_filter)))
      ∧ (∀ j : Nat, out.getD j false = true → spots_used.getD j false = false →
          counts.getD (((geneMask spot_gene_no g).take j).filter id).length 0
            = gridSum pos_filter
          ∧ (maskSelect spot_yxz (geneMask spot_gene_no g)).getD
              (((geneMask spot_gene_no g).take j).filter id).length (0, 0, 0)
            = spot_yxz.getD j (0, 0, 0))
      ∧ (∀ j : Nat, (geneMask spot_gene_no g).getD j false = true →
          counts.getD (((geneMask spot_gene_no g).take j).filter id).length 0
            < gridSum pos_filter →
          out.getD j false = spots_used.getD j false) := by
  cases hci : cropped_coef_image pixel_yxz (geneColumn pixel_coefs g) with
  | error e =>
    unfold spot_neighbourhood_gene_step at hstep
    rw [if_pos hany, hci, except_bind_error] at hstep
    exact Except.noConfusion hstep
  | ok ci =>
    cases hcnt : count_spot_neighbours (signGrid ci.img) ci.twoD
        (shiftSpots (maskSelect spot_yxz (geneMask spot_gene_no g)) ci.shift)
        pos_filter none with
    | error e =>
      unfold spot_neighbourhood_gene_step at hstep
      rw [if_pos hany, hci, except_bind_ok, hcnt, except_bind_error] at hstep
      exact Except.noConfusion hstep
    | ok cnt =>
      obtain ⟨counts, bo⟩ := cnt
      obtain ⟨hceq, hbo⟩ := count_spot_neighbours_ok_none_eq (signGrid ci.img) ci.twoD
        (shiftSpots (maskSelect spot_yxz (geneMask spot_gene_no g)) ci.shift)
        pos_filter counts bo hcnt
      subst hbo
      refine ⟨ci, counts, rfl, hcnt, ?_⟩
      have hgl : (geneMask spot_gene_no g).length = spot_gene_no.length := by
        simp [geneMask]
      have hclen : counts.length = (maskSelect spot_yxz (geneMask spot_gene_no g)).length := by
        rw [hceq]
        simp [shiftSpots]
      have hul : (updateUse (geneMask spot_gene_no g)
          (counts.map (fun n => n == gridSum pos_filter))).length = spots_used.length := by
        rw [updateUse_length, hgl, hlen]
      unfold spot_neighbourhood_gene_step at hstep
      rw [if_pos hany, hci, except_bind_ok, hcnt, except_bind_ok] at hstep
      have hstep2 : (if (updateUse (geneMask spot_gene_no g)
            (counts.map (fun n => n == gridSum pos_filter))).any id then
          (pure (orMask spots_used (updateUse (geneMask spot_gene_no g)
            (counts.map (fun n => n == gridSum pos_filter)))) : Except String (List Bool))
        else pure spots_used) = Except.ok out := hstep
      have hC : out = orMask spots_used (updateUse (geneMask spot_gene_no g)
          (counts.map (fun n => n == gridSum pos_filter))) := by
        by_cases h2 : (updateUse (geneMask spot_gene_no g)
            (counts.map (fun n => n == gridSum pos_filter))).any id
        · rw [if_pos h2] at hstep2
          exact (Except.ok.injEq _ _ ▸ hstep2).symm
        · rw [if_neg h2] at hstep2
          have h2f : (updateUse (geneMask spot_gene_no g)
              (counts.map (fun n => n == gridSum pos_filter))).any id = false :=
            Bool.eq_false_iff.mpr h2
          have hall : ∀ x ∈ updateUse (geneMask spot_gene_no g)
              (counts.map (fun n => n == gridSum pos_filter)), x = false := by
            intro x hx
            have hx2 := List.any_eq_false.mp h2f x hx
            simpa using hx2
          rw [orMask_false spots_used _ hul.symm hall]
          exact (Except.ok.injEq _ _ ▸ hstep2).symm
      refine ⟨hC, ?_, ?_⟩
      · intro j hout hsu
        have hor : (spots_used.getD j false
            || (updateUse (geneMask spot_gene_no g)
                (counts.map (fun n => n == gridSum pos_filter))).getD j false) = true := by
          rw [← orMask_getD spots_used _ hul.symm j, ← hC]
          exact hout
        rw [hsu, Bool.false_or] at hor
        rw [updateUse_getD] at hor
        rw [Bool.and_eq_true] at hor
        have hu : (geneMask spot_gene_no g).getD j false = true := hor.1
        have hg : (counts.map (fun n => n == gridSum pos_filter)).getD
            (((geneMask spot_gene_no g).take j).filter id).length false = true := hor.2
        obtain ⟨hrank, hsel⟩ := maskSelect_rank_spec ((0 : Int), (0 : Int), (0 : Int))
          spot_yxz (geneMask spot_gene_no g) j (by rw [hgl]; exact hslen) hu
        have hrank2 : (((geneMask spot_gene_no g).take j).filter id).length
            < counts.length := by rw [hclen]; exact hrank
        have hrank3 : (((geneMask spot_gene_no g).take j).filter id).length
            < (counts.map (fun n => n == gridSum pos_filter)).length := by
          rw [List.length_map]; exact hrank2
        rw [List.getD_eq_getElem _ false hrank3, List.getElem_map] at hg
        refine ⟨?_, hsel⟩
        rw [List.getD_eq_getElem counts 0 hrank2]
        exact beq_iff_eq.mp hg
      · intro j hu hlt
        obtain ⟨hrank, hsel⟩ := maskSelect_rank_spec ((0 : Int), (0 : Int), (0 : Int))
          spot_yxz (geneMask spot_gene_no g) j (by rw [hgl]; exact hslen) hu
        have hrank2 : (((geneMask spot_gene_no g).take j).filter id).length
            < counts.length := by rw [hclen]; exact hrank
        have hrank3 : (((geneMask spot_gene_no g).take j).filter id).length
            < (counts.map (fun n => n == gridSum pos_filter)).length := by
          rw [List.length_map]; exact hrank2
        have hgfalse : (counts.map (fun n => n == gridSum pos_filter)).getD
            (((geneMask spot_gene_no g).take j).filter id).length false = false := by
          rw [List.getD_eq_getElem _ false hrank3, List.getElem_map]
          rw [List.getD_eq_getElem counts 0 hrank2] at hlt
          exact beq_eq_false_iff_ne.mpr (ne_of_lt hlt)
        rw [hC, orMask_getD spots_used _ hul.symm j, updateUse_getD, hgfalse,
          Bool.and_false, Bool.or_false]

/-- Witness for `spot_neighbourhood_retention`: two pixels on one z plane,
one gene, coefficients `[1, -2]`, the spots at the two pixels, and the
constructed structuring element for `pos_neighbour_thresh = 1` on a
single-plane stack (a single central one).  The first spot sits on a
positive coefficient (count 1 = mask sum, retained), the second on a
negative coefficient (count 0 < 1, excluded). -/
theorem spot_neighbourhood_retention_witness :
    spot_neighbourhood_gene_step [((0 : Int), 0, 0), ((1 : Int), 0, 0)]
        [[(1 : ℚ)], [(-2 : ℚ)]] [((0 : Int), 0, 0), ((1 : Int), 0, 0)] [0, 0]
        (spotNeighbourhoodPosFilter 1 1) [false, false] 0 = Except.ok [true, false]
  ∧ (∃ (ci : CoefImage) (counts : List Int),
      cropped_coef_image [((0 : Int), 0, 0), ((1 : Int), 0, 0)]
          (geneColumn [[(1 : ℚ)], [(-2 : ℚ)]] 0) = Except.ok ci
      ∧ count_spot_neighbours (signGrid ci.img) ci.twoD
          (shiftSpots (maskSelect [((0 : Int), 0, 0), ((1 : Int), 0, 0)]
            (geneMask [0, 0] 0)) ci.shift)
          (spotNeighbourhoodPosFilter 1 1) none = Except.ok (counts, none)
      ∧ [true, false] = orMask [false, false] (updateUse (geneMask [0, 0] 0)
          (counts.map (fun n => n == gridSum (spotNeighbourhoodPosFilter 1 1))))
      ∧ (∀ j : Nat, ([true, false] : List Bool).getD j false = true →
          ([false, false] : List Bool).getD j false = false →
          counts.getD (((geneMask [0, 0] 0).take j).filter id).length 0
            = gridSum (spotNeighbourhoodPosFilter 1 1)
          ∧ (maskSelect ([((0 : Int), 0, 0), ((1 : Int), 0, 0)] : List (Int × Int × Int))
              (geneMask [0, 0] 0)).getD
                (((geneMask [0, 0] 0).take j).filter id).length (0, 0, 0)
            = ([((0 : Int), 0, 0), ((1 : Int), 0, 0)] : List (Int × Int × Int)).getD
                j (0, 0, 0))
      ∧ (∀ j : Nat, (geneMask [0, 0] 0).getD j false = true →
          counts.getD (((geneMask [0, 0] 0).take j).filter id).length 0
            < gridSum (spotNeighbourhoodPosFilter 1 1) →
          ([true, false] : List Bool).getD j false
            = ([false, false] : List Bool).getD j false)) :=
  ⟨by with_unfolding_all rfl,
   spot_neighbourhood_retention [((0 : Int), 0, 0), ((1 : Int), 0, 0)]
     [[(1 : ℚ)], [(-2 : ℚ)]] [((0 : Int), 0, 0), ((1 : Int), 0, 0)] [0, 0]
     (spotNeighbourhoodPosFilter 1 1) [false, false] [true, false] 0
     (by decide) (by decide) (by decide) (by with_unfolding_all rfl)⟩
